import Mathlib

/-!
Verification of the Warg registry client core (crates/client/src/lib.rs).

The client is embedded shallowly: every external effect (registry storage,
content storage, namespace-map storage, the registry API, the validator
state machines, the filesystem walk) is an oracle supplied by an `Env`
record, and each client operation is a function returning a trace of
effect events together with an `Except` result.  The trace lets us state
frame properties (which stores and fetches happen, and in which order)
exactly as the specification phrases them.

Opaque payloads (hashes, signatures, envelopes, fetch tokens, streams,
paths) are modelled as `Nat`; validator states are `Nat` with the
transition functions supplied by the environment, matching the interface
the client code consumes.
-/

/-- A package name: the code only ever splits it into its namespace part
(`name.namespace()`) and uses the whole name as a hash-map key, so we keep
the two components.  `nsp` stands for the namespace component. -/
structure PackageName where
  nsp : String
  base : String
deriving DecidableEq, Repr

/-- `LogId`: `LogId.operator_log()` is a fixed tag, `LogId.package_log(name)`
is a deterministic hash of the package name (injective for our purposes). -/
inductive LogId where
  | operator : LogId
  | package : PackageName → LogId
deriving DecidableEq, Repr

/-- A checkpoint `{ log_length, log_root, map_root }`. -/
structure Checkpoint where
  logLength : Nat
  logRoot : Nat
  mapRoot : Nat
deriving DecidableEq, Repr

/-- `TimestampedCheckpoint { checkpoint, timestamp }`. -/
structure TimestampedCheckpoint where
  checkpoint : Checkpoint
  timestamp : Nat
deriving DecidableEq, Repr

/-- `SerdeEnvelope<TimestampedCheckpoint>`: contents plus key id and signature. -/
structure TsEnvelope where
  contents : TimestampedCheckpoint
  keyId : Nat
  signature : Nat
deriving DecidableEq, Repr

/-- The payload of a `PublishedProtoEnvelope` after the `try_into`
conversion: the record envelope fed to the validator and its position in
the global log. -/
structure PublishedEnv where
  envelope : Nat
  registryIndex : Nat
deriving DecidableEq, Repr

instance {ε α : Type} [DecidableEq ε] [DecidableEq α] : DecidableEq (Except ε α) := fun x y =>
  match x, y with
  | Except.error a, Except.error b =>
      if h : a = b then Decidable.isTrue (by rw [h])
      else Decidable.isFalse (by intro hh; cases hh; exact h rfl)
  | Except.error _, Except.ok _ => Decidable.isFalse (by intro h; cases h)
  | Except.ok _, Except.error _ => Decidable.isFalse (by intro h; cases h)
  | Except.ok a, Except.ok b =>
      if h : a = b then Decidable.isTrue (by rw [h])
      else Decidable.isFalse (by intro hh; cases hh; exact h rfl)

/-- A record as returned by `fetch_logs`: the fallible envelope conversion
(`record.envelope.try_into()?`) and the opaque fetch token. -/
structure PublishedRecord where
  parsed : Except Nat PublishedEnv
  fetchToken : Nat
deriving DecidableEq, Repr

/-- `FetchLogsResponse { operator, packages, more }`. -/
structure FetchLogsResponse where
  operator : List PublishedRecord
  packages : List (LogId × List PublishedRecord)
  more : Bool
deriving DecidableEq, Repr

/-- The client-side cached view of a package log (`storage::PackageInfo`). -/
structure PackageInfo where
  name : PackageName
  state : Nat
  checkpoint : Option Checkpoint
  headRegistryIndex : Option Nat
  headFetchToken : Option Nat
deriving DecidableEq, Repr

/-- `PackageInfo::new(name)`: an empty log view. -/
def PackageInfo.new (name : PackageName) : PackageInfo :=
  ⟨name, 0, none, none, none⟩

/-- The client-side cached view of the operator log. -/
structure OperatorInfo where
  state : Nat
  headRegistryIndex : Option Nat
  headFetchToken : Option Nat
deriving DecidableEq, Repr

/-- `OperatorInfo::default()`: the empty operator log view. -/
def OperatorInfo.defaultInfo : OperatorInfo := ⟨0, none, none⟩

/-- `operator::NamespaceState`. -/
inductive NamespaceState where
  | defined : NamespaceState
  | imported : String → NamespaceState
deriving DecidableEq, Repr

/-- An entry of a publish intent; only whether it is `Init` matters here. -/
inductive PubEntry where
  | init : PubEntry
  | other : Nat → PubEntry
deriving DecidableEq, Repr

/-- `storage::PublishInfo { name, head, entries }`. -/
structure PublishInfo where
  name : PackageName
  head : Option Nat
  entries : List PubEntry
deriving DecidableEq, Repr

/-- Modelled from the spec: `PublishInfo::initializing()` lives in the
storage module, which is not among the repository files given; the spec
defines it as `initializing() := head.is_none() && entries.first.is_init`. -/
def PublishInfo.initializing (i : PublishInfo) : Bool :=
  i.head.isNone && (match i.entries.head? with
    | some PubEntry.init => true
    | _ => false)

/-- A leaf handed to the inclusion proof: `{ log_id, record_id }`. -/
structure LogLeaf where
  logId : LogId
  recordId : Nat
deriving DecidableEq, Repr

/-- A release as the package validator reports it: version and the content
digest (`None` when yanked). -/
structure Release where
  version : Nat
  content : Option Nat
deriving DecidableEq, Repr

/-- `UploadEndpoint::Http { method, url, headers }`, presently the only
variant. -/
structure UploadEndpoint where
  method : Nat
  url : Nat
  headers : Nat
deriving DecidableEq, Repr

/-- The `missing_content()` view of the record returned by
`publish_package_record`: the new record id and the missing digests with
their upload endpoints. -/
structure PublishResponse where
  recordId : Nat
  missingContent : List (Nat × List UploadEndpoint)
deriving DecidableEq, Repr

/-- An error of the registry API (`api::ClientError`), as far as the client
inspects it: `LogNotFound` and upload `Rejection` are matched on, all other
variants are passed through. -/
inductive ApiErr where
  | logNotFound : LogId → ApiErr
  | rejection : Nat → ApiErr
  | otherApi : Nat → ApiErr
deriving DecidableEq, Repr

/-- The client error taxonomy (`ClientError`), restricted to the variants
the embedded operations can produce.  `other` stands for
`ClientError::Other(anyhow)`, which also absorbs storage and conversion
failures; `panicked` marks the `unwrap()` of a missing validator head;
`modelDiverges` marks exhaustion of the supplied fetch responses, standing
for the fetch loop never terminating. -/
inductive Err where
  | invalidLocalNamespaceConfig : Err
  | noNamespaceConfig : Err
  | noCurrentDirectory : Err
  | namespaceStateError : String → Err
  | notPublishing : Err
  | nothingToPublish : PackageName → Err
  | cannotInitializePackage : PackageName → Err
  | mustInitializePackage : PackageName → Err
  | packageDoesNotExist : PackageName → Err
  | packageVersionDoesNotExist : Nat → PackageName → Err
  | operatorValidationFailed : Nat → Err
  | packageValidationFailed : PackageName → Nat → Err
  | invalidCheckpointSignature : Err
  | invalidCheckpointKeyId : Nat → Err
  | noOperatorRecords : Err
  | packageLogEmpty : PackageName → Err
  | contentNotFound : Nat → Err
  | publishRejected : PackageName → Nat → Nat → Err
  | checkpointLogLengthRewind : Nat → Nat → Err
  | checkpointChangedLogRootOrMapRoot : Nat → Err
  | api : ApiErr → Err
  | other : Nat → Err
  | panicked : Err
  | modelDiverges : Err
deriving DecidableEq, Repr

/-- One observable effect of a client operation.  Loads and stores name the
storage operation of the registry / content / namespace-map stores;
`fetchLogs`, `proveInclusion`, `proveConsistency`, `latestCheckpoint`,
`publishRecord`, `uploadContent` and `apiDownloadContent` are registry API
requests; `validateOp` / `validatePkg` record an envelope being handed to a
validator; `walkDir` records the filesystem walk of the namespace
resolver. -/
inductive Event where
  | loadOperator : Option String → Event
  | loadCheckpoint : Option String → Event
  | loadPackage : PackageName → Option String → Event
  | loadPublish : Event
  | storeOperator : OperatorInfo → Option String → Event
  | storePackage : PackageInfo → Option String → Event
  | storeCheckpoint : TsEnvelope → Option String → Event
  | storePublish : Option PublishInfo → Event
  | latestCheckpoint : Option String → Event
  | fetchLogs : Option Nat → List (LogId × Option Nat) → Event
  | validateOp : Nat → Event
  | validatePkg : LogId → Nat → Event
  | proveInclusion : Nat → List Nat → Event
  | proveConsistency : Nat → Nat → Nat → Nat → Event
  | publishRecord : LogId → Event
  | loadContent : Nat → Event
  | uploadContent : Nat → Event
  | apiDownloadContent : Option String → Nat → Event
  | storeContent : Nat → Event
  | walkDir : Event
  | loadNamespaceMap : Event
deriving DecidableEq, Repr

/-- A client computation: the trace of effects it performed and its result. -/
def Tr (α : Type) : Type := List Event × Except Err α

/-- Sequencing of traced computations: an error cuts the computation short,
keeping the trace so far. -/
def Tr.bind {α β : Type} : Tr α → (α → Tr β) → Tr β
  | (t, Except.error e), _ => (t, Except.error e)
  | (t, Except.ok a), f => (t ++ (f a).1, (f a).2)

instance : Monad Tr where
  pure a := ([], Except.ok a)
  bind := Tr.bind

/-- Record one effect event. -/
def emit (e : Event) : Tr Unit := ([e], Except.ok ())

/-- Fail with a client error (Rust `return Err(..)` / `?`). -/
def throwE {α : Type} (e : Err) : Tr α := ([], Except.error e)

/-- Lift a fallible storage / conversion result; its error becomes
`ClientError::Other`. -/
def liftOther {α : Type} : Except Nat α → Tr α
  | Except.error n => ([], Except.error (Err.other n))
  | Except.ok a => ([], Except.ok a)

/-- Lift a fallible API result; its error becomes `ClientError::Api`. -/
def liftApi {α : Type} : Except ApiErr α → Tr α
  | Except.error e => ([], Except.error (Err.api e))
  | Except.ok a => ([], Except.ok a)

/-- Lift an already-classified client result. -/
def liftClient {α : Type} (x : Except Err α) : Tr α := ([], x)

/-- `opt.ok_or(e)?`. -/
def ofOption {α : Type} : Option α → Err → Tr α
  | some a, _ => ([], Except.ok a)
  | none, e => ([], Except.error e)

/-- The environment of external oracles a client consumes: registry
storage, content storage, the namespace-map store, the registry API, the
validator state machines, signing, and the filesystem.  Read results and
call outcomes are data of the environment; the trace records which of them
the client actually consulted. -/
structure Env where
  loadOperator : Option String → Except Nat (Option OperatorInfo)
  loadCheckpoint : Option String → Except Nat (Option TsEnvelope)
  loadPackage : PackageName → Option String → Except Nat (Option PackageInfo)
  loadPublishRes : Except Nat (Option PublishInfo)
  storeOperatorRes : Except Nat Unit
  storePackageRes : LogId → Except Nat Unit
  storeCheckpointRes : Except Nat Unit
  storePublishRes : Except Nat Unit
  latestCheckpointRes : Option String → Except ApiErr TsEnvelope
  fetchResponses : List (Except ApiErr FetchLogsResponse)
  proveInclusionRes : Except ApiErr Unit
  proveConsistencyRes : Except ApiErr Unit
  publishRecordRes : LogId → Nat → Except ApiErr PublishResponse
  uploadContentRes : Nat → Except ApiErr Unit
  apiDownloadContentRes : Option String → Nat → Except ApiErr Nat
  opValidate : Nat → Nat → Except Nat Nat
  opHead : Nat → Option Nat
  opPublicKey : Nat → Nat → Option Nat
  opNamespaceState : Nat → String → Except String (Option NamespaceState)
  pkgValidate : Nat → Nat → Except Nat Nat
  pkgHead : Nat → Option Nat
  release : Nat → Nat → Option Release
  findLatestRelease : Nat → Nat → Option Release
  verifyTs : Nat → TsEnvelope → Bool
  finalizeRes : PublishInfo → Nat → Except Nat Nat
  loadContentRes : Nat → Except Nat (Option Nat)
  storeContent : (Nat → Option Nat) → Nat → Nat → Except Nat (Nat → Option Nat)
  loadNamespaceMapRes : Except Nat (Option (List (String × String)))
  currentDirOk : Bool
  wargFiles : List (Nat × Except Unit (Except Unit (List (String × String))))

/-- Association-list lookup (the embedding of a `HashMap` keyed by `α`). -/
def alookup {α β : Type} [DecidableEq α] : List (α × β) → α → Option β
  | [], _ => none
  | x :: xs, k => if x.1 = k then some x.2 else alookup xs k

/-- Association-list update in place (the value of an existing key). -/
def aupdate {α β : Type} [DecidableEq α] : List (α × β) → α → β → List (α × β)
  | [], _, _ => []
  | x :: xs, k, v => if x.1 = k then (k, v) :: xs else x :: aupdate xs k v

/-- `ClientError::translate_log_not_found`: a `LogNotFound` transport error
whose log id a lookup recognises becomes `PackageDoesNotExist`. -/
def translateLogNotFound (e : ApiErr) (lookupName : LogId → Option PackageName) : Err :=
  match e with
  | ApiErr.logNotFound id =>
      match lookupName id with
      | some n => Err.packageDoesNotExist n
      | none => Err.api e
  | _ => Err.api e

/-- The filter of `update_checkpoint` (lines 487-495): drop packages whose
stored checkpoint already equals the target checkpoint, keying the rest by
their package log id. -/
def filterPackages (cp : Checkpoint) (pkgs : List PackageInfo) :
    List (LogId × PackageInfo) :=
  pkgs.filterMap fun p =>
    match p.checkpoint with
    | some c => if c = cp then none else some (LogId.package p.name, p)
    | none => some (LogId.package p.name, p)

/-- The monotone-index gate both record loops use:
`head_registry_index.is_none() || registry_index > head_registry_index.unwrap()`. -/
def indexGate (head : Option Nat) (idx : Nat) : Bool :=
  match head with
  | none => true
  | some i => idx > i

/-- One operator record of a fetch response (lines 527-542): convert the
envelope, skip already-seen records by the index gate, otherwise validate
and advance the head index and fetch token. -/
def processOpRecord (env : Env) (o : OperatorInfo) (r : PublishedRecord) :
    Tr OperatorInfo := do
  let pe ← liftOther r.parsed
  if indexGate o.headRegistryIndex pe.registryIndex then do
    emit (Event.validateOp pe.envelope)
    match env.opValidate o.state pe.envelope with
    | Except.error inner => throwE (Err.operatorValidationFailed inner)
    | Except.ok s' =>
        pure ⟨s', some pe.registryIndex, some r.fetchToken⟩
  else
    pure o

/-- One package record of a fetch response (lines 549-567): the same gate,
validating against the package validator. -/
def processPkgRecord (env : Env) (lid : LogId) (p : PackageInfo)
    (r : PublishedRecord) : Tr PackageInfo := do
  let pe ← liftOther r.parsed
  if indexGate p.headRegistryIndex pe.registryIndex then do
    emit (Event.validatePkg lid pe.envelope)
    match env.pkgValidate p.state pe.envelope with
    | Except.error inner => throwE (Err.packageValidationFailed p.name inner)
    | Except.ok s' =>
        pure { p with state := s', headRegistryIndex := some pe.registryIndex, headFetchToken := some r.fetchToken }
  else
    pure p

/-- One package log of a fetch response (lines 544-575): the log must be in
the working set, its records are applied in order, and the log must not be
empty afterwards. -/
def processPkgLog (env : Env) (packages : List (LogId × PackageInfo))
    (entry : LogId × List PublishedRecord) : Tr (List (LogId × PackageInfo)) := do
  match alookup packages entry.1 with
  | none => throwE (Err.other 0)
  | some p => do
      let p' ← entry.2.foldlM (processPkgRecord env entry.1) p
      if (env.pkgHead p'.state).isNone then
        throwE (Err.packageLogEmpty p'.name)
      else
        pure (aupdate packages entry.1 p')

/-- The fetch-response unwrap of the loop body (lines 505-525): a
transport error goes through `translate_log_not_found` against the working
set. -/
def liftFetch (res : Except ApiErr FetchLogsResponse)
    (packages : List (LogId × PackageInfo)) : Tr FetchLogsResponse :=
  match res with
  | Except.error e =>
      throwE (translateLogNotFound e fun id => (alookup packages id).map (·.name))
  | Except.ok r => pure r

/-- The incremental fetch loop of `update_checkpoint` (lines 505-585),
driven by the environment's queue of fetch responses; an exhausted queue
stands for a server that answers `more == true` forever. -/
def fetchLoop (env : Env) (responses : List (Except ApiErr FetchLogsResponse))
    (operator : OperatorInfo) (packages : List (LogId × PackageInfo))
    (lastKnown : List (LogId × Option Nat)) :
    Tr (OperatorInfo × List (LogId × PackageInfo)) :=
  match responses with
  | [] => throwE Err.modelDiverges
  | res :: rest => do
      emit (Event.fetchLogs operator.headFetchToken lastKnown)
      let response ← liftFetch res packages
      let operator ← response.operator.foldlM (processOpRecord env) operator
      let packages ← response.packages.foldlM (processPkgLog env) packages
      if response.more then
        let lastKnown := lastKnown.map fun x =>
          (x.1, (alookup packages x.1).bind (·.headFetchToken))
        fetchLoop env rest operator packages lastKnown
      else
        pure (operator, packages)

/-- The checkpoint signature check (lines 587-597): resolve the key the
operator log binds to the checkpoint key id and verify the signature. -/
def checkSignature (env : Env) (ts : TsEnvelope) (operator : OperatorInfo) :
    Tr Unit :=
  match env.opPublicKey operator.state ts.keyId with
  | none => throwE (Err.invalidCheckpointKeyId ts.keyId)
  | some key =>
      if env.verifyTs key ts then pure () else throwE Err.invalidCheckpointSignature

/-- Building the inclusion-proof leaves (lines 599-627): the operator head
first, then each package head; a missing operator head is
`NoOperatorRecords`, a missing package head index is `PackageLogEmpty`, and
a head index without a validated head record is the `unwrap()` panic. -/
def buildLeaves (env : Env) (operator : OperatorInfo)
    (packages : List (LogId × PackageInfo)) : Tr (List Nat × List LogLeaf) :=
  match operator.headRegistryIndex with
  | none => throwE Err.noOperatorRecords
  | some idx =>
      match env.opHead operator.state with
      | none => throwE Err.panicked
      | some d =>
          packages.foldlM
            (fun acc x =>
              match x.2.headRegistryIndex with
              | none => throwE (Err.packageLogEmpty x.2.name)
              | some i =>
                  match env.pkgHead x.2.state with
                  | none => throwE Err.panicked
                  | some pd => pure (acc.1 ++ [i], acc.2 ++ [⟨x.1, pd⟩]))
            ([idx], [⟨LogId.operator, d⟩])

/-- The inclusion-proof request (lines 629-641). -/
def proveInclusionStep (env : Env) (cp : Checkpoint)
    (leaves : List Nat × List LogLeaf) : Tr Unit :=
  if leaves.2.isEmpty then pure ()
  else do
    emit (Event.proveInclusion cp.logLength leaves.1)
    liftApi env.proveInclusionRes

/-- The consistency check against the previously stored checkpoint
(lines 643-678): a greater stored log length is a rewind, a smaller one
requests a consistency proof between the two log roots, an equal one
requires both roots to be unchanged. -/
def consistencyStep (env : Env) (fromTs : TsEnvelope) (toTs : TsEnvelope) :
    Tr Unit :=
  match compare fromTs.contents.checkpoint.logLength toTs.contents.checkpoint.logLength with
  | Ordering.gt => throwE (Err.checkpointLogLengthRewind
      fromTs.contents.checkpoint.logLength toTs.contents.checkpoint.logLength)
  | Ordering.lt => do
      emit (Event.proveConsistency fromTs.contents.checkpoint.logLength
        toTs.contents.checkpoint.logLength
        fromTs.contents.checkpoint.logRoot toTs.contents.checkpoint.logRoot)
      liftApi env.proveConsistencyRes
  | Ordering.eq =>
      if fromTs.contents.checkpoint.logRoot ≠ toTs.contents.checkpoint.logRoot
          ∨ fromTs.contents.checkpoint.mapRoot ≠ toTs.contents.checkpoint.mapRoot then
        throwE (Err.checkpointChangedLogRootOrMapRoot fromTs.contents.checkpoint.logLength)
      else
        pure ()

/-- The dispatch on the previously stored checkpoint (line 643): the
consistency check runs only when one exists. -/
def consistencyGate (env : Env) (prev : Option TsEnvelope) (ts : TsEnvelope) :
    Tr Unit :=
  match prev with
  | some fromTs => consistencyStep env fromTs ts
  | none => pure ()

/-- Everything `update_checkpoint` does before its commit (lines 475-678):
load the cached operator, filter the working set (`none` = the early
success return when nothing is left), run the fetch loop, verify the
checkpoint signature, prove inclusion of every head, and check consistency
with the previously stored checkpoint. -/
def syncPhase (env : Env) (dom : Option String) (ts : TsEnvelope)
    (pkgs : List PackageInfo) :
    Tr (Option (OperatorInfo × List (LogId × PackageInfo))) := do
  let cp := ts.contents.checkpoint
  emit (Event.loadOperator dom)
  let op? ← liftOther (env.loadOperator dom)
  let operator := op?.getD OperatorInfo.defaultInfo
  let packages := filterPackages cp pkgs
  if packages.isEmpty then
    pure none
  else do
    let lastKnown := packages.map fun x => (x.1, x.2.headFetchToken)
    let st ← fetchLoop env env.fetchResponses operator packages lastKnown
    checkSignature env ts st.1
    let leaves ← buildLeaves env st.1 st.2
    proveInclusionStep env cp leaves
    emit (Event.loadCheckpoint dom)
    let prev ← liftOther (env.loadCheckpoint dom)
    consistencyGate env prev ts
    pure (some st)

/-- One iteration of the commit loop (lines 684-689): set the package
checkpoint to the new checkpoint and store the package. -/
def storePackageStep (env : Env) (dom : Option String) (ts : TsEnvelope)
    (acc : List (LogId × PackageInfo)) (x : LogId × PackageInfo) :
    Tr (List (LogId × PackageInfo)) := do
  emit (Event.storePackage { x.2 with checkpoint := some ts.contents.checkpoint } dom)
  liftOther (env.storePackageRes x.1)
  pure (acc ++ [(x.1, { x.2 with checkpoint := some ts.contents.checkpoint })])

/-- The commit of `update_checkpoint` (lines 680-693): store the operator,
then each package with its checkpoint field set to the new checkpoint, then
the checkpoint itself; the updated association list is returned. -/
def commitPhase (env : Env) (dom : Option String) (ts : TsEnvelope)
    (operator : OperatorInfo) (packages : List (LogId × PackageInfo)) :
    Tr (List (LogId × PackageInfo)) := do
  emit (Event.storeOperator operator dom)
  liftOther env.storeOperatorRes
  let stored ← packages.foldlM (storePackageStep env dom ts) []
  emit (Event.storeCheckpoint ts dom)
  liftOther env.storeCheckpointRes
  pure stored

/-- `update_checkpoint` (lines 469-696).  The returned list reflects the
in-place mutation of the caller's `PackageInfo` values: a package that was
synchronized is replaced by its committed version, one that was filtered
out is returned unchanged. -/
def update_checkpoint (env : Env) (dom : Option String) (ts : TsEnvelope)
    (pkgs : List PackageInfo) : Tr (List PackageInfo) := do
  let st? ← syncPhase env dom ts pkgs
  match st? with
  | none => pure pkgs
  | some st => do
      let stored ← commitPhase env dom ts st.1 st.2
      pure (pkgs.map fun p => (alookup stored (LogId.package p.name)).getD p)

/-- The `reduce` over the filesystem walk (lines 131-137): of all
`.warg.json` entries, keep the one with the greatest depth, earlier entries
winning ties. -/
def selectDeepest {α : Type} :
    List (Nat × α) → Option (Nat × α)
  | [] => none
  | e :: es => some (es.foldl (fun deepest cur =>
      if deepest.1 < cur.1 then cur else deepest) e)

/-- String-keyed map lookup (`HashMap<String, String>::get`). -/
def slookup : List (String × String) → String → Option String
  | [], _ => none
  | x :: xs, k => if x.1 = k then some x.2 else slookup xs k

/-- The third resolver tier (lines 147-154): the client-wide namespace map
store. -/
def namespaceMapTier (env : Env) (ns : String) : Tr (Option String) := do
  emit Event.loadNamespaceMap
  let nm ← liftOther env.loadNamespaceMapRes
  pure (match nm with
    | some m => slookup m ns
    | none => none)

/-- `get_package_namespace_domain` (lines 101-156): the operator log import
wins when the operator state is present; the `.warg.json` filesystem walk
runs only when it is absent; an unresolved domain falls through to the
namespace-map store. -/
def get_package_namespace_domain (env : Env) (name : PackageName) :
    Tr (Option String) := do
  let ns := name.nsp
  emit (Event.loadOperator none)
  let op? ← liftOther (env.loadOperator none)
  let domain ← (match op? with
    | some op =>
        (match env.opNamespaceState op.state ns with
        | Except.error n => throwE (Err.namespaceStateError n)
        | Except.ok nmState =>
            pure (match nmState with
              | some NamespaceState.defined => none
              | some (NamespaceState.imported r) => some r
              | none => none))
    | none =>
        if env.currentDirOk then do
          emit Event.walkDir
          match selectDeepest env.wargFiles with
          | some e =>
              (match e.2 with
              | Except.error _ => throwE Err.noNamespaceConfig
              | Except.ok (Except.error _) => throwE Err.invalidLocalNamespaceConfig
              | Except.ok (Except.ok m) => pure (slookup m ns))
          | none => pure none
        else
          throwE Err.noCurrentDirectory)
  if domain.isNone then
    namespaceMapTier env ns
  else
    pure domain

/-- The reconciliation of publish intent with observed state
(lines 227-235). -/
def reconcileIntent (initializing : Bool) (headIsSome : Bool)
    (name : PackageName) : Except Err Unit :=
  match initializing, headIsSome with
  | true, true => Except.error (Err.cannotInitializePackage name)
  | false, false => Except.error (Err.mustInitializePackage name)
  | _, _ => Except.ok ()

/-- The re-synchronization step of `publish_with_info` (lines 216-225):
update the single package to the latest checkpoint and seed the intent
head from the package log head. -/
def resyncStep (env : Env) (info : PublishInfo) (package : PackageInfo) :
    Tr (PublishInfo × PackageInfo) := do
  emit (Event.latestCheckpoint none)
  let ts ← liftApi (env.latestCheckpointRes none)
  let updated ← update_checkpoint env none ts [package]
  pure ({ info with head := env.pkgHead (updated.headD package).state },
    updated.headD package)

/-- `publish_with_info` up to and including the reconciliation
(lines 193-235): reject an empty intent, load or synthesize the package
log, re-synchronize to the latest checkpoint when not initializing and no
head was specified, then reconcile. -/
def publishPre (env : Env) (info : PublishInfo) (dom : Option String) :
    Tr (PublishInfo × PackageInfo) := do
  if info.entries.isEmpty then
    throwE (Err.nothingToPublish info.name)
  else do
    let initializing := info.initializing
    emit (Event.loadPackage info.name dom)
    let pkg? ← liftOther (env.loadPackage info.name dom)
    let package := pkg?.getD (PackageInfo.new info.name)
    let ip ← (if !initializing && info.head.isNone then
        resyncStep env info package
      else
        pure (info, package))
    liftClient (reconcileIntent initializing ip.1.head.isSome ip.2.name)
    pure ip

/-- One missing-content upload of the publish pipeline (lines 261-294):
skip when there is no endpoint, stream the blob from the content store,
translate an upload rejection into `PublishRejected`. -/
def uploadMissing (env : Env) (name : PackageName) (recordId : Nat)
    (mc : Nat × List UploadEndpoint) : Tr Unit :=
  match mc.2.head? with
  | none => pure ()
  | some _ => do
      emit (Event.loadContent mc.1)
      let stream? ← liftOther (env.loadContentRes mc.1)
      let _ ← ofOption stream? (Err.contentNotFound mc.1)
      emit (Event.uploadContent mc.1)
      match env.uploadContentRes mc.1 with
      | Except.error (ApiErr.rejection reason) =>
          throwE (Err.publishRejected name recordId reason)
      | Except.error e => throwE (Err.api e)
      | Except.ok _ => pure ()

/-- The submission API call of `publish_with_info` (lines 239-258):
`LogNotFound` for the log id being published becomes
`PackageDoesNotExist`. -/
def liftPublish (res : Except ApiErr PublishResponse) (logId : LogId)
    (name : PackageName) : Tr PublishResponse :=
  match res with
  | Except.error e =>
      throwE (translateLogNotFound e fun id => if id = logId then some name else none)
  | Except.ok r => pure r

/-- The submission half of `publish_with_info` (lines 237-296): finalize
the record, submit it (`LogNotFound` for our own log id becomes
`PackageDoesNotExist`), upload every missing content blob, and return the
record id. -/
def publishSubmit (env : Env) (key : Nat) (ip : PublishInfo × PackageInfo) :
    Tr Nat := do
  let record ← liftOther (env.finalizeRes ip.1 key)
  emit (Event.publishRecord (LogId.package ip.2.name))
  let resp ← liftPublish (env.publishRecordRes (LogId.package ip.2.name) record)
    (LogId.package ip.2.name) ip.2.name
  let _ ← resp.missingContent.foldlM
    (fun _ mc => uploadMissing env ip.2.name resp.recordId mc) ()
  pure resp.recordId

/-- `publish_with_info` (lines 187-297). -/
def publish_with_info (env : Env) (key : Nat) (info : PublishInfo)
    (dom : Option String) : Tr Nat :=
  publishPre env info dom >>= publishSubmit env key

/-- Reify a traced computation without propagating its error (the Rust
`let res = ...await;` that keeps the `Result` as a value). -/
def reify {α : Type} (x : Tr α) : Tr (Except Err α) := (x.1, Except.ok x.2)

/-- `publish` (lines 165-178): load the pending intent, resolve the
namespace domain, run `publish_with_info` keeping its result as a value,
clear the stored pending publish, then surface the kept result. -/
def publish (env : Env) (key : Nat) : Tr Nat := do
  emit Event.loadPublish
  let info? ← liftOther env.loadPublishRes
  let info ← ofOption info? Err.notPublishing
  let dom ← get_package_namespace_domain env info.name
  let res ← reify (publish_with_info env key info dom)
  emit (Event.storePublish none)
  liftOther env.storePublishRes
  liftClient res

/-- `fetch_package` (lines 698-717): resolve the namespace domain, return
the cached log if it exists, otherwise synchronize a fresh one to the
latest checkpoint. -/
def fetch_package (env : Env) (name : PackageName) : Tr PackageInfo := do
  let dom ← get_package_namespace_domain env name
  emit (Event.loadPackage name dom)
  let found ← liftOther (env.loadPackage name dom)
  match found with
  | some info => pure info
  | none => do
      emit (Event.latestCheckpoint dom)
      let ts ← liftApi (env.latestCheckpointRes dom)
      let updated ← update_checkpoint env dom ts [PackageInfo.new name]
      pure (updated.headD (PackageInfo.new name))

/-- The content-store location map: what `content_location(digest)`
answers.  `store_content` may change it, so it is threaded through
`download_content`. -/
def CState : Type := Nat → Option Nat

/-- `download_content` (lines 745-770): return the cached location if the
digest is already present, otherwise download from `url` (the default
registry when `None`), sink the stream into the content store, and look
the location up again. -/
def download_content (env : Env) (cst : CState) (url : Option String)
    (digest : Nat) : Tr (Nat × CState) :=
  match cst digest with
  | some path => pure (path, cst)
  | none => do
      emit (Event.apiDownloadContent url digest)
      let stream ← liftApi (env.apiDownloadContentRes url digest)
      emit (Event.storeContent digest)
      let cst' ← liftOther (env.storeContent cst stream digest)
      match cst' digest with
      | some path => pure (path, cst')
      | none => throwE (Err.contentNotFound digest)

/-- The result of a download: version, digest and content path. -/
structure PackageDownload where
  version : Nat
  digest : Nat
  path : Nat
deriving DecidableEq, Repr

/-- `download` (lines 398-428): resolve the latest release satisfying the
requirement, resolve the content host URL through the namespace-map store,
and fetch the content. -/
def download (env : Env) (cst : CState) (name : PackageName) (req : Nat) :
    Tr (Option PackageDownload) := do
  let info ← fetch_package env name
  match env.findLatestRelease info.state req with
  | some rel => do
      let digest ← (match rel.content with
        | none => throwE (Err.other 1)
        | some d => pure d)
      emit Event.loadNamespaceMap
      let nm ← liftOther env.loadNamespaceMapRes
      let url := (match nm with
        | some m => slookup m name.nsp
        | none => none)
      let pc ← download_content env cst url digest
      pure (some ⟨rel.version, digest, pc.1⟩)
  | none => pure none

/-- `download_exact` (lines 439-467): demand the exact version with
content, then fetch that content with `url = None`. -/
def download_exact (env : Env) (cst : CState) (package : PackageName)
    (version : Nat) : Tr PackageDownload := do
  let info ← fetch_package env package
  let rel ← ofOption (env.release info.state version)
    (Err.packageVersionDoesNotExist version package)
  let digest ← ofOption rel.content
    (Err.packageVersionDoesNotExist version package)
  let pc ← download_content env cst none digest
  pure ⟨version, digest, pc.1⟩

/-- The event kinds `update_checkpoint` can emit. -/
def isUpdateEvent : Event → Bool
  | Event.loadOperator _ => true
  | Event.fetchLogs _ _ => true
  | Event.validateOp _ => true
  | Event.validatePkg _ _ => true
  | Event.proveInclusion _ _ => true
  | Event.loadCheckpoint _ => true
  | Event.proveConsistency _ _ _ _ => true
  | Event.storeOperator _ _ => true
  | Event.storePackage _ _ => true
  | Event.storeCheckpoint _ _ => true
  | _ => false

/-- The event kinds the namespace resolver can emit. -/
def isResolverEvent : Event → Bool
  | Event.loadOperator _ => true
  | Event.walkDir => true
  | Event.loadNamespaceMap => true
  | _ => false

/-- The event kinds the pre-submission half of the publish pipeline can
emit: a package load, a latest-checkpoint request, and anything of the
re-synchronization. -/
def isPublishPreEvent (e : Event) : Bool :=
  isUpdateEvent e ||
    (match e with
    | Event.loadPackage _ _ => true
    | Event.latestCheckpoint _ => true
    | _ => false)

/-- The event kinds the submission half of the publish pipeline can emit. -/
def isSubmitEvent : Event → Bool
  | Event.publishRecord _ => true
  | Event.loadContent _ => true
  | Event.uploadContent _ => true
  | _ => false

/-- The event kinds `publish_with_info` can emit. -/
def isPwiEvent (e : Event) : Bool := isPublishPreEvent e || isSubmitEvent e

/-- The event kinds `fetch_package` can emit. -/
def isFetchPackageEvent (e : Event) : Bool :=
  isResolverEvent e || isPublishPreEvent e

/-- A trace invariant: every event the computation emits satisfies `P`. -/
def TraceInv {α : Type} (P : Event → Prop) (x : Tr α) : Prop :=
  ∀ e ∈ x.1, P e

/-- A result invariant: any error the computation returns satisfies `P`. -/
def ErrInv {α : Type} (P : Err → Prop) (x : Tr α) : Prop :=
  ∀ e, x.2 = Except.error e → P e

/-- The three registry stores `update_checkpoint` commits: operator,
package, checkpoint. -/
def isRegistryStore : Event → Bool
  | Event.storeOperator _ _ => true
  | Event.storePackage _ _ => true
  | Event.storeCheckpoint _ _ => true
  | _ => false

/-- A read of any client-side store. -/
def isStorageRead : Event → Bool
  | Event.loadOperator _ => true
  | Event.loadCheckpoint _ => true
  | Event.loadPackage _ _ => true
  | Event.loadPublish => true
  | Event.loadContent _ => true
  | Event.loadNamespaceMap => true
  | _ => false

/-- An access (read or write) of the stored pending publish intent. -/
def touchesPublishStore : Event → Bool
  | Event.loadPublish => true
  | Event.storePublish _ => true
  | _ => false

/-- The failure kinds claim C1 lists for `update_checkpoint`: record
validation, checkpoint signature or key id, an API proof request
(inclusion or consistency), rewind, and root mismatch. -/
def isCheckFailure : Err → Bool
  | Err.operatorValidationFailed _ => true
  | Err.packageValidationFailed _ _ => true
  | Err.invalidCheckpointSignature => true
  | Err.invalidCheckpointKeyId _ => true
  | Err.api _ => true
  | Err.checkpointLogLengthRewind _ _ => true
  | Err.checkpointChangedLogRootOrMapRoot _ => true
  | _ => false

/-- The three intent-reconciliation failures of the publish pipeline. -/
def isIntentErr : Err → Bool
  | Err.nothingToPublish _ => true
  | Err.cannotInitializePackage _ => true
  | Err.mustInitializePackage _ => true
  | _ => false

/-- A concrete environment for the concrete-input theorems: every oracle
answers with a fixed, simple value. -/
def envBase : Env where
  loadOperator := fun _ => Except.ok none
  loadCheckpoint := fun _ => Except.ok none
  loadPackage := fun _ _ => Except.ok none
  loadPublishRes := Except.ok none
  storeOperatorRes := Except.ok ()
  storePackageRes := fun _ => Except.ok ()
  storeCheckpointRes := Except.ok ()
  storePublishRes := Except.ok ()
  latestCheckpointRes := fun _ => Except.error (ApiErr.otherApi 0)
  fetchResponses := []
  proveInclusionRes := Except.ok ()
  proveConsistencyRes := Except.ok ()
  publishRecordRes := fun _ _ => Except.error (ApiErr.otherApi 0)
  uploadContentRes := fun _ => Except.ok ()
  apiDownloadContentRes := fun _ _ => Except.error (ApiErr.otherApi 0)
  opValidate := fun _ _ => Except.error 0
  opHead := fun _ => none
  opPublicKey := fun _ _ => none
  opNamespaceState := fun _ _ => Except.ok none
  pkgValidate := fun _ _ => Except.error 0
  pkgHead := fun _ => none
  release := fun _ _ => none
  findLatestRelease := fun _ _ => none
  verifyTs := fun _ _ => false
  finalizeRes := fun _ _ => Except.error 0
  loadContentRes := fun _ => Except.ok none
  storeContent := fun c _ _ => Except.ok c
  loadNamespaceMapRes := Except.ok none
  currentDirOk := true
  wargFiles := []

/-- The checkpoint of the C5 concrete input. -/
def cpC5 : Checkpoint := ⟨5, 1, 2⟩

/-- The checkpoint envelope of the C5 concrete input. -/
def tsC5 : TsEnvelope := ⟨⟨cpC5, 0⟩, 0, 0⟩

/-- A package already at the C5 checkpoint. -/
def pkgC5 : PackageInfo := ⟨⟨"ns", "pkg"⟩, 0, some cpC5, none, none⟩

/-- The environment of the C4 counterexample: the operator state is
present with the namespace Defined, a `.warg.json` in the tree maps the
namespace to one domain, and the client-wide namespace map maps it to
another. -/
def envC4 : Env := { envBase with
  loadOperator := fun _ => Except.ok (some ⟨0, none, none⟩),
  opNamespaceState := fun _ _ => Except.ok (some NamespaceState.defined),
  wargFiles := [(3, Except.ok (Except.ok [("acme", "filedomain")]))],
  loadNamespaceMapRes := Except.ok (some [("acme", "mapdomain")]) }

/-- The package name of the C4 counterexample. -/
def nameC4 : PackageName := ⟨"acme", "x"⟩

/-- A write of the stored pending publish intent. -/
def isStorePublishEvent : Event → Bool
  | Event.storePublish _ => true
  | _ => false

/-- The pending publish intent of the C7 concrete inputs. -/
def infoC7 : PublishInfo := ⟨⟨"ns", "p"⟩, none, [PubEntry.init]⟩

/-- The environment of the C7 counterexample: a pending publish intent is
stored, and the operator-log load of namespace resolution fails. -/
def envC7 : Env := { envBase with
  loadPublishRes := Except.ok (some infoC7),
  loadOperator := fun _ => Except.error 7 }

/-- A record submission event. -/
def isPublishRecordEvent : Event → Bool
  | Event.publishRecord _ => true
  | _ => false

/-- Every API content download in a trace uses the default registry URL
(`url = None`). -/
def urlIsNoneEvent : Event → Bool
  | Event.apiDownloadContent u _ => u.isNone
  | _ => true

/-- A package not yet at any checkpoint. -/
def pkgW : PackageInfo := ⟨⟨"ns", "pkg"⟩, 0, none, none, none⟩

/-- Environment for the C1 witness: one empty fetch response, no
checkpoint key resolvable. -/
def envC1w : Env := { envBase with
  fetchResponses := [Except.ok ⟨[], [], false⟩] }

/-- Environment for the C3 witness: validators that accept. -/
def envC3 : Env := { envBase with
  opValidate := fun _ _ => Except.ok 7,
  pkgValidate := fun _ _ => Except.ok 8 }

/-- A fetched operator record at registry index 9 with fetch token 33. -/
def rW : PublishedRecord := ⟨Except.ok ⟨5, 9⟩, 33⟩

/-- An operator log view whose head index already covers index 9. -/
def oSkip : OperatorInfo := ⟨0, some 9, some 1⟩

/-- An empty operator log view. -/
def oTake : OperatorInfo := ⟨0, none, none⟩

/-- Environment for the C4 amended witness: the operator imports the
namespace from another registry. -/
def envC4i : Env := { envC4 with
  opNamespaceState := fun _ _ =>
    Except.ok (some (NamespaceState.imported "other")) }

/-- An empty publish intent. -/
def infoEmpty : PublishInfo := ⟨⟨"ns", "p"⟩, none, []⟩

/-- Environment for the amended C7 witness: a pending intent is stored and
namespace resolution succeeds (with no resolved domain). -/
def envC7w : Env := { envBase with
  loadPublishRes := Except.ok (some infoC7) }

/-- A content-store location map holding digest 4 at path 44. -/
def cstW : CState := fun d => if d = 4 then some 44 else none

@[simp] theorem Tr.bind_eq {α β : Type} (x : Tr α) (f : α → Tr β) :
    x >>= f = Tr.bind x f := rfl

@[simp] theorem Tr.bind_error {α β : Type} (t : List Event) (e : Err)
    (f : α → Tr β) : Tr.bind (t, Except.error e) f = (t, Except.error e) := rfl

@[simp] theorem Tr.bind_ok {α β : Type} (t : List Event) (a : α)
    (f : α → Tr β) : Tr.bind (t, Except.ok a) f = (t ++ (f a).1, (f a).2) := rfl

@[simp] theorem Tr.pure_eq {α : Type} (a : α) :
    (pure a : Tr α) = ([], Except.ok a) := rfl

@[simp] theorem Tr.emit_eq (e : Event) : emit e = ([e], Except.ok ()) := rfl

theorem Tr.bind_fst_of_error {α β : Type} (x : Tr α) (f : α → Tr β) (e : Err)
    (h : x.2 = Except.error e) : (Tr.bind x f).1 = x.1 := by
  obtain ⟨t, r⟩ := x
  cases r with
  | error e' => rfl
  | ok a => simp at h

theorem Tr.bind_of_ok {α β : Type} (x : Tr α) (f : α → Tr β) (a : α)
    (h : x.2 = Except.ok a) :
    Tr.bind x f = (x.1 ++ (f a).1, (f a).2) := by
  obtain ⟨t, r⟩ := x
  cases r with
  | error e' => simp at h
  | ok a' => cases h; rfl

theorem Tr.bind_pure_ok {α β : Type} (a : α) (f : α → Tr β) :
    Tr.bind ([], Except.ok a) f = f a := by
  show ([] ++ (f a).1, (f a).2) = f a
  simp

theorem traceInv_pure {α : Type} (P : Event → Prop) (a : α) :
    TraceInv P (pure a : Tr α) := by
  intro e he; simp [Tr.pure_eq] at he

theorem traceInv_throw {α : Type} (P : Event → Prop) (e : Err) :
    TraceInv P (throwE e : Tr α) := by
  intro x hx; simp [throwE] at hx

theorem traceInv_emit (P : Event → Prop) (e : Event) (h : P e) :
    TraceInv P (emit e) := by
  intro x hx
  simp [emit] at hx
  exact hx ▸ h

theorem traceInv_liftOther {α : Type} (P : Event → Prop) (x : Except Nat α) :
    TraceInv P (liftOther x) := by
  intro e he; cases x <;> simp [liftOther] at he

theorem traceInv_liftApi {α : Type} (P : Event → Prop) (x : Except ApiErr α) :
    TraceInv P (liftApi x) := by
  intro e he; cases x <;> simp [liftApi] at he

theorem traceInv_liftClient {α : Type} (P : Event → Prop) (x : Except Err α) :
    TraceInv P (liftClient x) := by
  intro e he; simp [liftClient] at he

theorem traceInv_ofOption {α : Type} (P : Event → Prop) (x : Option α) (e : Err) :
    TraceInv P (ofOption x e) := by
  intro ev hev; cases x <;> simp [ofOption] at hev

theorem traceInv_bind {α β : Type} (P : Event → Prop) (x : Tr α) (f : α → Tr β)
    (hx : TraceInv P x) (hf : ∀ a, TraceInv P (f a)) :
    TraceInv P (x >>= f) := by
  intro e he
  rw [Tr.bind_eq] at he
  obtain ⟨t, r⟩ := x
  cases r with
  | error err =>
      rw [Tr.bind_error] at he
      exact hx e he
  | ok a =>
      rw [Tr.bind_ok] at he
      rcases List.mem_append.mp he with h | h
      · exact hx e h
      · exact hf a e h

theorem traceInv_foldlM {α β : Type} (P : Event → Prop) (g : β → α → Tr β)
    (l : List α) (hg : ∀ b a, TraceInv P (g b a)) :
    ∀ b, TraceInv P (List.foldlM g b l) := by
  induction l with
  | nil => intro b; exact traceInv_pure P b
  | cons x xs ih =>
      intro b
      rw [List.foldlM_cons]
      exact traceInv_bind P _ _ (hg b x) fun b' => ih b'

/-- A result invariant: any error the computation returns satisfies `P`. -/
theorem errInv_pure {α : Type} (P : Err → Prop) (a : α) :
    ErrInv P (pure a : Tr α) := by
  intro e he; simp [Tr.pure_eq] at he

theorem errInv_emit (P : Err → Prop) (e : Event) : ErrInv P (emit e) := by
  intro x hx; simp [emit] at hx

theorem errInv_throw {α : Type} (P : Err → Prop) (e : Err) (h : P e) :
    ErrInv P (throwE e : Tr α) := by
  intro x hx
  simp [throwE] at hx
  exact hx ▸ h

theorem errInv_liftOther {α : Type} (P : Err → Prop) (x : Except Nat α)
    (h : ∀ n, P (Err.other n)) : ErrInv P (liftOther x) := by
  intro e he
  cases x with
  | error n => simp [liftOther] at he; exact he ▸ h n
  | ok a => simp [liftOther] at he

theorem errInv_liftApi {α : Type} (P : Err → Prop) (x : Except ApiErr α)
    (h : ∀ a, P (Err.api a)) : ErrInv P (liftApi x) := by
  intro e he
  cases x with
  | error a => simp [liftApi] at he; exact he ▸ h a
  | ok v => simp [liftApi] at he

theorem errInv_liftClient {α : Type} (P : Err → Prop) (x : Except Err α)
    (h : ∀ e, x = Except.error e → P e) : ErrInv P (liftClient x) := by
  intro e he
  exact h e he

theorem errInv_ofOption {α : Type} (P : Err → Prop) (x : Option α) (e : Err)
    (h : P e) : ErrInv P (ofOption x e) := by
  intro e' he'
  cases x with
  | none => simp [ofOption] at he'; exact he' ▸ h
  | some a => simp [ofOption] at he'

theorem errInv_bind {α β : Type} (P : Err → Prop) (x : Tr α) (f : α → Tr β)
    (hx : ErrInv P x) (hf : ∀ a, ErrInv P (f a)) :
    ErrInv P (x >>= f) := by
  intro e he
  rw [Tr.bind_eq] at he
  obtain ⟨t, r⟩ := x
  cases r with
  | error err =>
      rw [Tr.bind_error] at he
      simp only [Except.error.injEq] at he
      exact he ▸ hx err rfl
  | ok a =>
      rw [Tr.bind_ok] at he
      exact hf a e he

theorem errInv_foldlM {α β : Type} (P : Err → Prop) (g : β → α → Tr β)
    (l : List α) (hg : ∀ b a, ErrInv P (g b a)) :
    ∀ b, ErrInv P (List.foldlM g b l) := by
  induction l with
  | nil => intro b; exact errInv_pure P b
  | cons x xs ih =>
      intro b
      rw [List.foldlM_cons]
      exact errInv_bind P _ _ (hg b x) fun b' => ih b'

theorem traceInv_mono {α : Type} {P Q : Event → Prop} (h : ∀ e, P e → Q e)
    (x : Tr α) (hx : TraceInv P x) : TraceInv Q x :=
  fun e he => h e (hx e he)

theorem processOpRecord_traceInv (P : Event → Prop)
    (hvo : ∀ n, P (Event.validateOp n)) (env : Env) (o : OperatorInfo)
    (r : PublishedRecord) : TraceInv P (processOpRecord env o r) := by
  unfold processOpRecord
  apply traceInv_bind P _ _ (traceInv_liftOther P _)
  intro pe
  cases hg : indexGate o.headRegistryIndex pe.registryIndex
  · simp only [Bool.false_eq_true, if_false]
    exact traceInv_pure P o
  · simp only [if_true]
    apply traceInv_bind P _ _ (traceInv_emit P _ (hvo pe.envelope))
    intro _
    cases env.opValidate o.state pe.envelope
    · exact traceInv_throw P _
    · exact traceInv_pure P _

theorem processPkgRecord_traceInv (P : Event → Prop)
    (hvp : ∀ l n, P (Event.validatePkg l n)) (env : Env) (lid : LogId)
    (p : PackageInfo) (r : PublishedRecord) :
    TraceInv P (processPkgRecord env lid p r) := by
  unfold processPkgRecord
  apply traceInv_bind P _ _ (traceInv_liftOther P _)
  intro pe
  cases hg : indexGate p.headRegistryIndex pe.registryIndex
  · simp only [Bool.false_eq_true, if_false]
    exact traceInv_pure P p
  · simp only [if_true]
    apply traceInv_bind P _ _ (traceInv_emit P _ (hvp lid pe.envelope))
    intro _
    cases env.pkgValidate p.state pe.envelope
    · exact traceInv_throw P _
    · exact traceInv_pure P _

theorem processPkgLog_traceInv (P : Event → Prop)
    (hvp : ∀ l n, P (Event.validatePkg l n)) (env : Env)
    (packages : List (LogId × PackageInfo))
    (entry : LogId × List PublishedRecord) :
    TraceInv P (processPkgLog env packages entry) := by
  unfold processPkgLog
  cases alookup packages entry.1
  · exact traceInv_throw P _
  · rename_i p
    apply traceInv_bind P _ _
      (traceInv_foldlM P _ _ (fun b a => processPkgRecord_traceInv P hvp env entry.1 b a) p)
    intro p'
    cases (env.pkgHead p'.state).isNone
    · simp only [Bool.false_eq_true, if_false]
      exact traceInv_pure P _
    · simp only [if_true]
      exact traceInv_throw P _

theorem liftFetch_traceInv (P : Event → Prop)
    (res : Except ApiErr FetchLogsResponse)
    (packages : List (LogId × PackageInfo)) :
    TraceInv P (liftFetch res packages) := by
  unfold liftFetch
  split
  · exact traceInv_throw P _
  · exact traceInv_pure P _

theorem fetchLoop_traceInv (P : Event → Prop)
    (hfetch : ∀ t lk, P (Event.fetchLogs t lk))
    (hvo : ∀ n, P (Event.validateOp n))
    (hvp : ∀ l n, P (Event.validatePkg l n)) (env : Env) :
    ∀ (responses : List (Except ApiErr FetchLogsResponse)) operator packages
      lastKnown, TraceInv P (fetchLoop env responses operator packages lastKnown) := by
  intro responses
  induction responses with
  | nil => intro o p lk; exact traceInv_throw P _
  | cons res rest ih =>
      intro o p lk
      unfold fetchLoop
      apply traceInv_bind P _ _ (traceInv_emit P _ (hfetch _ _))
      intro _
      apply traceInv_bind P _ _ (liftFetch_traceInv P res p)
      intro response
      apply traceInv_bind P _ _
        (traceInv_foldlM P _ _ (fun b a => processOpRecord_traceInv P hvo env b a) o)
      intro o'
      apply traceInv_bind P _ _
        (traceInv_foldlM P _ _ (fun b a => processPkgLog_traceInv P hvp env b a) p)
      intro p'
      split
      · exact ih o' p' _
      · exact traceInv_pure P _

theorem checkSignature_traceInv (P : Event → Prop) (env : Env)
    (ts : TsEnvelope) (operator : OperatorInfo) :
    TraceInv P (checkSignature env ts operator) := by
  unfold checkSignature
  split
  · exact traceInv_throw P _
  · split
    · exact traceInv_pure P _
    · exact traceInv_throw P _

theorem buildLeaves_traceInv (P : Event → Prop) (env : Env)
    (operator : OperatorInfo) (packages : List (LogId × PackageInfo)) :
    TraceInv P (buildLeaves env operator packages) := by
  unfold buildLeaves
  split
  · exact traceInv_throw P _
  · split
    · exact traceInv_throw P _
    · apply traceInv_foldlM P
      intro b a
      split
      · exact traceInv_throw P _
      · split
        · exact traceInv_throw P _
        · exact traceInv_pure P _

theorem proveInclusionStep_traceInv (P : Event → Prop)
    (hincl : ∀ n l, P (Event.proveInclusion n l)) (env : Env)
    (cp : Checkpoint) (leaves : List Nat × List LogLeaf) :
    TraceInv P (proveInclusionStep env cp leaves) := by
  unfold proveInclusionStep
  split
  · exact traceInv_pure P _
  · apply traceInv_bind P _ _ (traceInv_emit P _ (hincl _ _))
    intro _
    exact traceInv_liftApi P _

theorem consistencyStep_traceInv (P : Event → Prop)
    (hcons : ∀ a b c d, P (Event.proveConsistency a b c d)) (env : Env)
    (fromTs toTs : TsEnvelope) : TraceInv P (consistencyStep env fromTs toTs) := by
  unfold consistencyStep
  split
  · exact traceInv_throw P _
  · apply traceInv_bind P _ _ (traceInv_emit P _ (hcons _ _ _ _))
    intro _
    exact traceInv_liftApi P _
  · split
    · exact traceInv_throw P _
    · exact traceInv_pure P _

theorem consistencyGate_traceInv (P : Event → Prop)
    (hcons : ∀ a b c d, P (Event.proveConsistency a b c d)) (env : Env)
    (prev : Option TsEnvelope) (ts : TsEnvelope) :
    TraceInv P (consistencyGate env prev ts) := by
  unfold consistencyGate
  split
  · exact consistencyStep_traceInv P hcons env _ ts
  · exact traceInv_pure P _

theorem syncPhase_traceInv (P : Event → Prop)
    (hload : ∀ d, P (Event.loadOperator d))
    (hfetch : ∀ t lk, P (Event.fetchLogs t lk))
    (hvo : ∀ n, P (Event.validateOp n))
    (hvp : ∀ l n, P (Event.validatePkg l n))
    (hincl : ∀ n l, P (Event.proveInclusion n l))
    (hloadcp : ∀ d, P (Event.loadCheckpoint d))
    (hcons : ∀ a b c d, P (Event.proveConsistency a b c d))
    (env : Env) (dom : Option String) (ts : TsEnvelope)
    (pkgs : List PackageInfo) : TraceInv P (syncPhase env dom ts pkgs) := by
  unfold syncPhase
  apply traceInv_bind P _ _ (traceInv_emit P _ (hload dom))
  intro _
  apply traceInv_bind P _ _ (traceInv_liftOther P _)
  intro op?
  dsimp only
  split
  · exact traceInv_pure P _
  · apply traceInv_bind P _ _ (fetchLoop_traceInv P hfetch hvo hvp env _ _ _ _)
    intro st
    apply traceInv_bind P _ _ (checkSignature_traceInv P env ts st.1)
    intro _
    apply traceInv_bind P _ _ (buildLeaves_traceInv P env st.1 st.2)
    intro leaves
    apply traceInv_bind P _ _ (proveInclusionStep_traceInv P hincl env _ leaves)
    intro _
    apply traceInv_bind P _ _ (traceInv_emit P _ (hloadcp dom))
    intro _
    apply traceInv_bind P _ _ (traceInv_liftOther P _)
    intro prev
    apply traceInv_bind P _ _ (consistencyGate_traceInv P hcons env prev ts)
    intro _
    exact traceInv_pure P _

theorem commitPhase_traceInv (P : Event → Prop)
    (hso : ∀ o d, P (Event.storeOperator o d))
    (hsp : ∀ p d, P (Event.storePackage p d))
    (hsc : ∀ c d, P (Event.storeCheckpoint c d))
    (env : Env) (dom : Option String) (ts : TsEnvelope)
    (operator : OperatorInfo) (packages : List (LogId × PackageInfo)) :
    TraceInv P (commitPhase env dom ts operator packages) := by
  unfold commitPhase
  apply traceInv_bind P _ _ (traceInv_emit P _ (hso operator dom))
  intro _
  apply traceInv_bind P _ _ (traceInv_liftOther P _)
  intro _
  apply traceInv_bind P
  · apply traceInv_foldlM P
    intro b a
    unfold storePackageStep
    apply traceInv_bind P _ _ (traceInv_emit P _ (hsp _ dom))
    intro _
    apply traceInv_bind P _ _ (traceInv_liftOther P _)
    intro _
    exact traceInv_pure P _
  intro stored
  apply traceInv_bind P _ _ (traceInv_emit P _ (hsc ts dom))
  intro _
  apply traceInv_bind P _ _ (traceInv_liftOther P _)
  intro _
  exact traceInv_pure P _

theorem update_checkpoint_traceInv (P : Event → Prop)
    (hload : ∀ d, P (Event.loadOperator d))
    (hfetch : ∀ t lk, P (Event.fetchLogs t lk))
    (hvo : ∀ n, P (Event.validateOp n))
    (hvp : ∀ l n, P (Event.validatePkg l n))
    (hincl : ∀ n l, P (Event.proveInclusion n l))
    (hloadcp : ∀ d, P (Event.loadCheckpoint d))
    (hcons : ∀ a b c d, P (Event.proveConsistency a b c d))
    (hso : ∀ o d, P (Event.storeOperator o d))
    (hsp : ∀ p d, P (Event.storePackage p d))
    (hsc : ∀ c d, P (Event.storeCheckpoint c d))
    (env : Env) (dom : Option String) (ts : TsEnvelope)
    (pkgs : List PackageInfo) : TraceInv P (update_checkpoint env dom ts pkgs) := by
  unfold update_checkpoint
  apply traceInv_bind P _ _
    (syncPhase_traceInv P hload hfetch hvo hvp hincl hloadcp hcons env dom ts pkgs)
  intro st?
  cases st?
  · exact traceInv_pure P _
  · apply traceInv_bind P _ _ (commitPhase_traceInv P hso hsp hsc env dom ts _ _)
    intro stored
    exact traceInv_pure P _

theorem update_checkpoint_events (P : Event → Prop)
    (hAll : ∀ e, isUpdateEvent e = true → P e) (env : Env) (dom : Option String)
    (ts : TsEnvelope) (pkgs : List PackageInfo) :
    TraceInv P (update_checkpoint env dom ts pkgs) :=
  update_checkpoint_traceInv P
    (fun d => hAll _ rfl) (fun t lk => hAll _ rfl) (fun n => hAll _ rfl)
    (fun l n => hAll _ rfl) (fun n l => hAll _ rfl) (fun d => hAll _ rfl)
    (fun a b c d => hAll _ rfl) (fun o d => hAll _ rfl) (fun p d => hAll _ rfl)
    (fun c d => hAll _ rfl) env dom ts pkgs

theorem namespaceMapTier_traceInv (P : Event → Prop)
    (hnm : P Event.loadNamespaceMap) (env : Env) (ns : String) :
    TraceInv P (namespaceMapTier env ns) := by
  unfold namespaceMapTier
  apply traceInv_bind P _ _ (traceInv_emit P _ hnm)
  intro _
  apply traceInv_bind P _ _ (traceInv_liftOther P _)
  intro nm
  exact traceInv_pure P _

theorem get_package_namespace_domain_traceInv (P : Event → Prop)
    (hload : P (Event.loadOperator none)) (hwalk : P Event.walkDir)
    (hnm : P Event.loadNamespaceMap) (env : Env) (name : PackageName) :
    TraceInv P (get_package_namespace_domain env name) := by
  unfold get_package_namespace_domain
  apply traceInv_bind P _ _ (traceInv_emit P _ hload)
  intro _
  apply traceInv_bind P _ _ (traceInv_liftOther P _)
  intro op?
  apply traceInv_bind P
  · cases op? with
    | some op =>
        dsimp only
        split
        · exact traceInv_throw P _
        · exact traceInv_pure P _
    | none =>
        dsimp only
        split
        · apply traceInv_bind P _ _ (traceInv_emit P _ hwalk)
          intro _
          split
          · split
            · exact traceInv_throw P _
            · exact traceInv_throw P _
            · exact traceInv_pure P _
          · exact traceInv_pure P _
        · exact traceInv_throw P _
  intro domain
  split
  · exact namespaceMapTier_traceInv P hnm env _
  · exact traceInv_pure P _

theorem resyncStep_traceInv (P : Event → Prop)
    (hAll : ∀ e, isPublishPreEvent e = true → P e) (env : Env)
    (info : PublishInfo) (package : PackageInfo) :
    TraceInv P (resyncStep env info package) := by
  unfold resyncStep
  apply traceInv_bind P _ _
    (traceInv_emit P _ (hAll (Event.latestCheckpoint none) rfl))
  intro _
  apply traceInv_bind P _ _ (traceInv_liftApi P _)
  intro ts
  apply traceInv_bind P
  · exact update_checkpoint_events P (fun e he => hAll e (by
      unfold isPublishPreEvent
      rw [he]
      rfl)) env none ts [package]
  intro updated
  exact traceInv_pure P _

theorem publishPre_traceInv (P : Event → Prop)
    (hAll : ∀ e, isPublishPreEvent e = true → P e) (env : Env)
    (info : PublishInfo) (dom : Option String) :
    TraceInv P (publishPre env info dom) := by
  unfold publishPre
  split
  · exact traceInv_throw P _
  · apply traceInv_bind P _ _
      (traceInv_emit P _ (hAll (Event.loadPackage info.name dom) rfl))
    intro _
    apply traceInv_bind P _ _ (traceInv_liftOther P _)
    intro pkg?
    apply traceInv_bind P
    · split
      · exact resyncStep_traceInv P hAll env _ _
      · exact traceInv_pure P _
    intro ip
    apply traceInv_bind P _ _ (traceInv_liftClient P _)
    intro _
    exact traceInv_pure P _

theorem uploadMissing_traceInv (P : Event → Prop)
    (hlc : ∀ n, P (Event.loadContent n)) (huc : ∀ n, P (Event.uploadContent n))
    (env : Env) (name : PackageName) (recordId : Nat)
    (mc : Nat × List UploadEndpoint) :
    TraceInv P (uploadMissing env name recordId mc) := by
  unfold uploadMissing
  split
  · exact traceInv_pure P _
  · apply traceInv_bind P _ _ (traceInv_emit P _ (hlc _))
    intro _
    apply traceInv_bind P _ _ (traceInv_liftOther P _)
    intro stream?
    apply traceInv_bind P _ _ (traceInv_ofOption P _ _)
    intro _
    apply traceInv_bind P _ _ (traceInv_emit P _ (huc _))
    intro _
    split
    · exact traceInv_throw P _
    · exact traceInv_throw P _
    · exact traceInv_pure P _

theorem liftPublish_traceInv (P : Event → Prop)
    (res : Except ApiErr PublishResponse) (logId : LogId) (name : PackageName) :
    TraceInv P (liftPublish res logId name) := by
  unfold liftPublish
  split
  · exact traceInv_throw P _
  · exact traceInv_pure P _

theorem publishSubmit_traceInv (P : Event → Prop)
    (hAll : ∀ e, isSubmitEvent e = true → P e) (env : Env) (key : Nat)
    (ip : PublishInfo × PackageInfo) :
    TraceInv P (publishSubmit env key ip) := by
  unfold publishSubmit
  apply traceInv_bind P _ _ (traceInv_liftOther P _)
  intro record
  apply traceInv_bind P _ _
    (traceInv_emit P _ (hAll (Event.publishRecord (LogId.package ip.2.name)) rfl))
  intro _
  apply traceInv_bind P _ _ (liftPublish_traceInv P _ _ _)
  intro resp
  apply traceInv_bind P
  · apply traceInv_foldlM P
    intro b a
    exact uploadMissing_traceInv P (fun n => hAll _ rfl) (fun n => hAll _ rfl)
      env _ _ a
  intro _
  exact traceInv_pure P _

theorem publish_with_info_traceInv (P : Event → Prop)
    (hAll : ∀ e, isPwiEvent e = true → P e) (env : Env) (key : Nat)
    (info : PublishInfo) (dom : Option String) :
    TraceInv P (publish_with_info env key info dom) := by
  unfold publish_with_info
  apply traceInv_bind P
  · exact publishPre_traceInv P (fun e he => hAll e (by
      unfold isPwiEvent
      rw [he]
      rfl)) env info dom
  intro ip
  exact publishSubmit_traceInv P (fun e he => hAll e (by
    unfold isPwiEvent
    rw [he, Bool.or_true])) env key ip

theorem fetch_package_traceInv (P : Event → Prop)
    (hAll : ∀ e, isFetchPackageEvent e = true → P e) (env : Env)
    (name : PackageName) : TraceInv P (fetch_package env name) := by
  unfold fetch_package
  apply traceInv_bind P
  · exact get_package_namespace_domain_traceInv P (hAll _ rfl) (hAll _ rfl)
      (hAll _ rfl) env name
  intro dom
  apply traceInv_bind P _ _ (traceInv_emit P _ (hAll _ (by
    unfold isFetchPackageEvent isPublishPreEvent
    rfl)))
  intro _
  apply traceInv_bind P _ _ (traceInv_liftOther P _)
  intro found
  cases found with
  | some info => exact traceInv_pure P _
  | none =>
      apply traceInv_bind P _ _ (traceInv_emit P _ (hAll _ (by
        unfold isFetchPackageEvent isPublishPreEvent
        rfl)))
      intro _
      apply traceInv_bind P _ _ (traceInv_liftApi P _)
      intro ts
      apply traceInv_bind P
      · exact update_checkpoint_events P (fun e he => hAll e (by
          unfold isFetchPackageEvent isPublishPreEvent
          rw [he]
          simp)) env dom ts _
      intro updated
      exact traceInv_pure P _

theorem download_content_traceInv (P : Event → Prop) (env : Env) (cst : CState)
    (url : Option String) (digest : Nat)
    (hdl : P (Event.apiDownloadContent url digest))
    (hst : P (Event.storeContent digest)) :
    TraceInv P (download_content env cst url digest) := by
  unfold download_content
  split
  · exact traceInv_pure P _
  · apply traceInv_bind P _ _ (traceInv_emit P _ hdl)
    intro _
    apply traceInv_bind P _ _ (traceInv_liftApi P _)
    intro stream
    apply traceInv_bind P _ _ (traceInv_emit P _ hst)
    intro _
    apply traceInv_bind P _ _ (traceInv_liftOther P _)
    intro cst'
    split
    · exact traceInv_pure P _
    · exact traceInv_throw P _

theorem translateLogNotFound_notIntent (e : ApiErr)
    (f : LogId → Option PackageName) :
    isIntentErr (translateLogNotFound e f) = false := by
  unfold translateLogNotFound
  split
  · split <;> rfl
  · rfl

theorem processOpRecord_errInv (env : Env) (o : OperatorInfo)
    (r : PublishedRecord) :
    ErrInv (fun e => isIntentErr e = false) (processOpRecord env o r) := by
  unfold processOpRecord
  apply errInv_bind (fun e => isIntentErr e = false) _ _ (errInv_liftOther _ _ (fun n => rfl))
  intro pe
  split
  · apply errInv_bind (fun e => isIntentErr e = false) _ _ (errInv_emit _ _)
    intro _
    split
    · exact errInv_throw _ _ rfl
    · exact errInv_pure _ _
  · exact errInv_pure _ _

theorem processPkgRecord_errInv (env : Env) (lid : LogId) (p : PackageInfo)
    (r : PublishedRecord) :
    ErrInv (fun e => isIntentErr e = false) (processPkgRecord env lid p r) := by
  unfold processPkgRecord
  apply errInv_bind (fun e => isIntentErr e = false) _ _ (errInv_liftOther _ _ (fun n => rfl))
  intro pe
  split
  · apply errInv_bind (fun e => isIntentErr e = false) _ _ (errInv_emit _ _)
    intro _
    split
    · exact errInv_throw _ _ rfl
    · exact errInv_pure _ _
  · exact errInv_pure _ _

theorem processPkgLog_errInv (env : Env) (packages : List (LogId × PackageInfo))
    (entry : LogId × List PublishedRecord) :
    ErrInv (fun e => isIntentErr e = false) (processPkgLog env packages entry) := by
  unfold processPkgLog
  split
  · exact errInv_throw _ _ rfl
  · apply errInv_bind _ _ _
      (errInv_foldlM _ _ _ (fun b a => processPkgRecord_errInv env entry.1 b a) _)
    intro p'
    split
    · exact errInv_throw _ _ rfl
    · exact errInv_pure _ _

theorem liftFetch_errInv (res : Except ApiErr FetchLogsResponse)
    (packages : List (LogId × PackageInfo)) :
    ErrInv (fun e => isIntentErr e = false) (liftFetch res packages) := by
  unfold liftFetch
  split
  · exact errInv_throw _ _ (translateLogNotFound_notIntent _ _)
  · exact errInv_pure _ _

theorem fetchLoop_errInv (env : Env) :
    ∀ (responses : List (Except ApiErr FetchLogsResponse)) operator packages
      lastKnown, ErrInv (fun e => isIntentErr e = false)
        (fetchLoop env responses operator packages lastKnown) := by
  intro responses
  induction responses with
  | nil => intro o p lk; exact errInv_throw _ _ rfl
  | cons res rest ih =>
      intro o p lk
      unfold fetchLoop
      apply errInv_bind (fun e => isIntentErr e = false) _ _ (errInv_emit _ _)
      intro _
      apply errInv_bind (fun e => isIntentErr e = false) _ _ (liftFetch_errInv res p)
      intro response
      apply errInv_bind _ _ _
        (errInv_foldlM _ _ _ (fun b a => processOpRecord_errInv env b a) o)
      intro o'
      apply errInv_bind _ _ _
        (errInv_foldlM _ _ _ (fun b a => processPkgLog_errInv env b a) p)
      intro p'
      split
      · exact ih o' p' _
      · exact errInv_pure _ _

theorem checkSignature_errInv (env : Env) (ts : TsEnvelope)
    (operator : OperatorInfo) :
    ErrInv (fun e => isIntentErr e = false) (checkSignature env ts operator) := by
  unfold checkSignature
  split
  · exact errInv_throw _ _ rfl
  · split
    · exact errInv_pure _ _
    · exact errInv_throw _ _ rfl

theorem buildLeaves_errInv (env : Env) (operator : OperatorInfo)
    (packages : List (LogId × PackageInfo)) :
    ErrInv (fun e => isIntentErr e = false) (buildLeaves env operator packages) := by
  unfold buildLeaves
  split
  · exact errInv_throw _ _ rfl
  · split
    · exact errInv_throw _ _ rfl
    · apply errInv_foldlM (fun e => isIntentErr e = false)
      intro b a
      split
      · exact errInv_throw _ _ rfl
      · split
        · exact errInv_throw _ _ rfl
        · exact errInv_pure _ _

theorem proveInclusionStep_errInv (env : Env) (cp : Checkpoint)
    (leaves : List Nat × List LogLeaf) :
    ErrInv (fun e => isIntentErr e = false) (proveInclusionStep env cp leaves) := by
  unfold proveInclusionStep
  split
  · exact errInv_pure _ _
  · apply errInv_bind (fun e => isIntentErr e = false) _ _ (errInv_emit _ _)
    intro _
    exact errInv_liftApi _ _ (fun a => rfl)

theorem consistencyStep_errInv (env : Env) (fromTs toTs : TsEnvelope) :
    ErrInv (fun e => isIntentErr e = false) (consistencyStep env fromTs toTs) := by
  unfold consistencyStep
  split
  · exact errInv_throw _ _ rfl
  · apply errInv_bind (fun e => isIntentErr e = false) _ _ (errInv_emit _ _)
    intro _
    exact errInv_liftApi _ _ (fun a => rfl)
  · split
    · exact errInv_throw _ _ rfl
    · exact errInv_pure _ _

theorem consistencyGate_errInv (env : Env) (prev : Option TsEnvelope)
    (ts : TsEnvelope) :
    ErrInv (fun e => isIntentErr e = false) (consistencyGate env prev ts) := by
  unfold consistencyGate
  split
  · exact consistencyStep_errInv env _ ts
  · exact errInv_pure _ _

theorem syncPhase_errInv (env : Env) (dom : Option String) (ts : TsEnvelope)
    (pkgs : List PackageInfo) :
    ErrInv (fun e => isIntentErr e = false) (syncPhase env dom ts pkgs) := by
  unfold syncPhase
  apply errInv_bind (fun e => isIntentErr e = false) _ _ (errInv_emit _ _)
  intro _
  apply errInv_bind (fun e => isIntentErr e = false) _ _ (errInv_liftOther _ _ (fun n => rfl))
  intro op?
  dsimp only
  split
  · exact errInv_pure _ _
  · apply errInv_bind (fun e => isIntentErr e = false) _ _ (fetchLoop_errInv env _ _ _ _)
    intro st
    apply errInv_bind (fun e => isIntentErr e = false) _ _ (checkSignature_errInv env ts st.1)
    intro _
    apply errInv_bind (fun e => isIntentErr e = false) _ _ (buildLeaves_errInv env st.1 st.2)
    intro leaves
    apply errInv_bind (fun e => isIntentErr e = false) _ _ (proveInclusionStep_errInv env _ leaves)
    intro _
    apply errInv_bind (fun e => isIntentErr e = false) _ _ (errInv_emit _ _)
    intro _
    apply errInv_bind (fun e => isIntentErr e = false) _ _ (errInv_liftOther _ _ (fun n => rfl))
    intro prev
    apply errInv_bind (fun e => isIntentErr e = false) _ _ (consistencyGate_errInv env prev ts)
    intro _
    exact errInv_pure _ _

theorem commitPhase_errOther (env : Env) (dom : Option String) (ts : TsEnvelope)
    (operator : OperatorInfo) (packages : List (LogId × PackageInfo)) :
    ErrInv (fun e => ∃ n, e = Err.other n)
      (commitPhase env dom ts operator packages) := by
  unfold commitPhase
  apply errInv_bind (fun e => ∃ n, e = Err.other n) _ _ (errInv_emit _ _)
  intro _
  apply errInv_bind (fun e => ∃ n, e = Err.other n) _ _ (errInv_liftOther _ _ (fun n => ⟨n, rfl⟩))
  intro _
  apply errInv_bind (fun e => ∃ n, e = Err.other n)
  · apply errInv_foldlM (fun e => ∃ n, e = Err.other n)
    intro b a
    unfold storePackageStep
    apply errInv_bind (fun e => ∃ n, e = Err.other n) _ _ (errInv_emit _ _)
    intro _
    apply errInv_bind (fun e => ∃ n, e = Err.other n) _ _ (errInv_liftOther _ _ (fun n => ⟨n, rfl⟩))
    intro _
    exact errInv_pure _ _
  intro stored
  apply errInv_bind (fun e => ∃ n, e = Err.other n) _ _ (errInv_emit _ _)
  intro _
  apply errInv_bind (fun e => ∃ n, e = Err.other n) _ _ (errInv_liftOther _ _ (fun n => ⟨n, rfl⟩))
  intro _
  exact errInv_pure _ _

theorem commitPhase_errInv (env : Env) (dom : Option String) (ts : TsEnvelope)
    (operator : OperatorInfo) (packages : List (LogId × PackageInfo)) :
    ErrInv (fun e => isIntentErr e = false)
      (commitPhase env dom ts operator packages) := by
  intro e he
  obtain ⟨n, hn⟩ := commitPhase_errOther env dom ts operator packages e he
  rw [hn]
  rfl

theorem update_checkpoint_errInv (env : Env) (dom : Option String)
    (ts : TsEnvelope) (pkgs : List PackageInfo) :
    ErrInv (fun e => isIntentErr e = false)
      (update_checkpoint env dom ts pkgs) := by
  unfold update_checkpoint
  apply errInv_bind (fun e => isIntentErr e = false) _ _ (syncPhase_errInv env dom ts pkgs)
  intro st?
  cases st?
  · exact errInv_pure _ _
  · apply errInv_bind (fun e => isIntentErr e = false) _ _ (commitPhase_errInv env dom ts _ _)
    intro stored
    exact errInv_pure _ _

theorem uploadMissing_errInv (env : Env) (name : PackageName) (recordId : Nat)
    (mc : Nat × List UploadEndpoint) :
    ErrInv (fun e => isIntentErr e = false)
      (uploadMissing env name recordId mc) := by
  unfold uploadMissing
  split
  · exact errInv_pure _ _
  · apply errInv_bind (fun e => isIntentErr e = false) _ _ (errInv_emit _ _)
    intro _
    apply errInv_bind (fun e => isIntentErr e = false) _ _ (errInv_liftOther _ _ (fun n => rfl))
    intro stream?
    apply errInv_bind (fun e => isIntentErr e = false) _ _
      (errInv_ofOption _ _ (Err.contentNotFound mc.1) rfl)
    intro _
    apply errInv_bind (fun e => isIntentErr e = false) _ _ (errInv_emit _ _)
    intro _
    split
    · exact errInv_throw _ _ rfl
    · exact errInv_throw _ _ rfl
    · exact errInv_pure _ _

theorem liftPublish_errInv (res : Except ApiErr PublishResponse) (logId : LogId)
    (name : PackageName) :
    ErrInv (fun e => isIntentErr e = false) (liftPublish res logId name) := by
  unfold liftPublish
  split
  · exact errInv_throw _ _ (translateLogNotFound_notIntent _ _)
  · exact errInv_pure _ _

theorem publishSubmit_errInv (env : Env) (key : Nat)
    (ip : PublishInfo × PackageInfo) :
    ErrInv (fun e => isIntentErr e = false) (publishSubmit env key ip) := by
  unfold publishSubmit
  apply errInv_bind (fun e => isIntentErr e = false) _ _ (errInv_liftOther _ _ (fun n => rfl))
  intro record
  apply errInv_bind (fun e => isIntentErr e = false) _ _ (errInv_emit _ _)
  intro _
  apply errInv_bind (fun e => isIntentErr e = false) _ _ (liftPublish_errInv _ _ _)
  intro resp
  apply errInv_bind (fun e => isIntentErr e = false)
  · apply errInv_foldlM (fun e => isIntentErr e = false)
    intro b a
    exact uploadMissing_errInv env _ _ a
  intro _
  exact errInv_pure _ _

/-- C2: in `update_checkpoint`, comparing the previously stored checkpoint
log length with the new one gives exactly one of three outcomes: greater
fails with `CheckpointLogLengthRewind{from, to}`; equal with either root
differing fails with `CheckpointChangedLogRootOrMapRoot{log_length}`;
smaller requests a consistency proof from the stored log root to the new
log root, whose outcome is the outcome of the pass. -/
theorem claim_C2_checkpoint_comparison (env : Env) (fromTs toTs : TsEnvelope) :
    (fromTs.contents.checkpoint.logLength > toTs.contents.checkpoint.logLength →
      consistencyStep env fromTs toTs =
        ([], Except.error (Err.checkpointLogLengthRewind
          fromTs.contents.checkpoint.logLength toTs.contents.checkpoint.logLength)))
    ∧ (fromTs.contents.checkpoint.logLength = toTs.contents.checkpoint.logLength →
      (fromTs.contents.checkpoint.logRoot ≠ toTs.contents.checkpoint.logRoot ∨
        fromTs.contents.checkpoint.mapRoot ≠ toTs.contents.checkpoint.mapRoot) →
      consistencyStep env fromTs toTs =
        ([], Except.error (Err.checkpointChangedLogRootOrMapRoot
          fromTs.contents.checkpoint.logLength)))
    ∧ (fromTs.contents.checkpoint.logLength < toTs.contents.checkpoint.logLength →
      consistencyStep env fromTs toTs =
        ([Event.proveConsistency fromTs.contents.checkpoint.logLength
            toTs.contents.checkpoint.logLength
            fromTs.contents.checkpoint.logRoot toTs.contents.checkpoint.logRoot],
          (match env.proveConsistencyRes with
            | Except.ok _ => Except.ok ()
            | Except.error e => Except.error (Err.api e)))) := by
  refine ⟨fun hgt => ?_, fun heq hne => ?_, fun hlt => ?_⟩
  · have hc : compare fromTs.contents.checkpoint.logLength
        toTs.contents.checkpoint.logLength = Ordering.gt :=
      Nat.compare_eq_gt.mpr hgt
    unfold consistencyStep
    rw [hc]
    rfl
  · have hc : compare fromTs.contents.checkpoint.logLength
        toTs.contents.checkpoint.logLength = Ordering.eq :=
      Nat.compare_eq_eq.mpr heq
    unfold consistencyStep
    rw [hc]
    show (if (fromTs.contents.checkpoint.logRoot ≠ toTs.contents.checkpoint.logRoot ∨
        fromTs.contents.checkpoint.mapRoot ≠ toTs.contents.checkpoint.mapRoot) then
        throwE (Err.checkpointChangedLogRootOrMapRoot
          fromTs.contents.checkpoint.logLength)
      else pure ()) = _
    rw [if_pos hne]
    rfl
  · have hc : compare fromTs.contents.checkpoint.logLength
        toTs.contents.checkpoint.logLength = Ordering.lt :=
      Nat.compare_eq_lt.mpr hlt
    unfold consistencyStep
    rw [hc]
    cases env.proveConsistencyRes <;> rfl

theorem processOpRecord_eq (env : Env) (o : OperatorInfo) (r : PublishedRecord)
    (pe : PublishedEnv) (h : r.parsed = Except.ok pe) :
    processOpRecord env o r =
      if indexGate o.headRegistryIndex pe.registryIndex then
        match env.opValidate o.state pe.envelope with
        | Except.error i =>
            ([Event.validateOp pe.envelope],
              Except.error (Err.operatorValidationFailed i))
        | Except.ok s' =>
            ([Event.validateOp pe.envelope],
              Except.ok ⟨s', some pe.registryIndex, some r.fetchToken⟩)
      else ([], Except.ok o) := by
  unfold processOpRecord
  rw [h, Tr.bind_eq]
  rw [show (liftOther (Except.ok pe) : Tr PublishedEnv) = ([], Except.ok pe) from rfl]
  rw [Tr.bind_pure_ok]
  cases hg : indexGate o.headRegistryIndex pe.registryIndex
  · rfl
  · cases env.opValidate o.state pe.envelope <;> rfl

theorem processPkgRecord_eq (env : Env) (lid : LogId) (p : PackageInfo)
    (r : PublishedRecord) (pe : PublishedEnv) (h : r.parsed = Except.ok pe) :
    processPkgRecord env lid p r =
      if indexGate p.headRegistryIndex pe.registryIndex then
        match env.pkgValidate p.state pe.envelope with
        | Except.error i =>
            ([Event.validatePkg lid pe.envelope],
              Except.error (Err.packageValidationFailed p.name i))
        | Except.ok s' =>
            ([Event.validatePkg lid pe.envelope],
              Except.ok ⟨p.name, s', p.checkpoint, some pe.registryIndex, some r.fetchToken⟩)
      else ([], Except.ok p) := by
  unfold processPkgRecord
  rw [h, Tr.bind_eq]
  rw [show (liftOther (Except.ok pe) : Tr PublishedEnv) = ([], Except.ok pe) from rfl]
  rw [Tr.bind_pure_ok]
  cases hg : indexGate p.headRegistryIndex pe.registryIndex
  · rfl
  · cases env.pkgValidate p.state pe.envelope <;> rfl

/-- C3: a fetched record's envelope is handed to the validator exactly when
the log head index is unset or the record's registry index strictly
exceeds it; a gated-out record is skipped with no validator call and no
state change; a successfully validated record advances the head index and
fetch token to the record's values, after which the same record no longer
passes the gate.  Both the operator and the package record loop behave this
way. -/
theorem claim_C3_monotone_index_gate (env : Env) (o : OperatorInfo)
    (lid : LogId) (p : PackageInfo) (r : PublishedRecord) (pe : PublishedEnv)
    (h : r.parsed = Except.ok pe) :
    ((Event.validateOp pe.envelope ∈ (processOpRecord env o r).1 ↔
        indexGate o.headRegistryIndex pe.registryIndex = true)
      ∧ (indexGate o.headRegistryIndex pe.registryIndex = false →
          processOpRecord env o r = ([], Except.ok o))
      ∧ (∀ s', indexGate o.headRegistryIndex pe.registryIndex = true →
          env.opValidate o.state pe.envelope = Except.ok s' →
          processOpRecord env o r = ([Event.validateOp pe.envelope],
            Except.ok ⟨s', some pe.registryIndex, some r.fetchToken⟩)
          ∧ indexGate (some pe.registryIndex) pe.registryIndex = false))
    ∧ ((Event.validatePkg lid pe.envelope ∈ (processPkgRecord env lid p r).1 ↔
        indexGate p.headRegistryIndex pe.registryIndex = true)
      ∧ (indexGate p.headRegistryIndex pe.registryIndex = false →
          processPkgRecord env lid p r = ([], Except.ok p))
      ∧ (∀ s', indexGate p.headRegistryIndex pe.registryIndex = true →
          env.pkgValidate p.state pe.envelope = Except.ok s' →
          processPkgRecord env lid p r = ([Event.validatePkg lid pe.envelope],
            Except.ok ⟨p.name, s', p.checkpoint, some pe.registryIndex, some r.fetchToken⟩)
          ∧ indexGate (some pe.registryIndex) pe.registryIndex = false)) := by
  rw [Iff.comm, Iff.comm]
  refine ⟨⟨?_, ?_, ?_⟩, ?_, ?_, ?_⟩
  · rw [processOpRecord_eq env o r pe h]
    cases hg : indexGate o.headRegistryIndex pe.registryIndex
    · simp
    · cases env.opValidate o.state pe.envelope <;> simp
  · intro hg
    rw [processOpRecord_eq env o r pe h, hg]
    rfl
  · intro s' hg hv
    rw [processOpRecord_eq env o r pe h, hg, hv]
    exact ⟨rfl, by simp [indexGate]⟩
  · rw [processPkgRecord_eq env lid p r pe h]
    cases hg : indexGate p.headRegistryIndex pe.registryIndex
    · simp
    · cases env.pkgValidate p.state pe.envelope <;> simp
  · intro hg
    rw [processPkgRecord_eq env lid p r pe h, hg]
    rfl
  · intro s' hg hv
    rw [processPkgRecord_eq env lid p r pe h, hg, hv]
    exact ⟨rfl, by simp [indexGate]⟩

/-- C9: `download_content` is idempotent: a digest whose location is
already known is returned at once, with no API download and no content
store; consequently a second call for the same digest after a successful
one returns the same path and performs only the pure location lookup. -/
theorem claim_C9_download_content_idempotent (env : Env) (cst : CState)
    (url : Option String) (digest : Nat) :
    (∀ path, cst digest = some path →
      download_content env cst url digest = ([], Except.ok (path, cst)))
    ∧ (∀ t p c', download_content env cst url digest = (t, Except.ok (p, c')) →
      download_content env c' url digest = ([], Except.ok (p, c'))) := by
  constructor
  · intro path hp
    unfold download_content
    rw [hp]
    rfl
  · intro t p c' h
    have hc : c' digest = some p := by
      unfold download_content at h
      cases hl : cst digest with
      | some path =>
          rw [hl] at h
          simp only [Tr.pure_eq] at h
          injection h with h1 h2
          injection h2 with h3
          injection h3 with h4 h5
          rw [← h5, ← h4]
          exact hl
      | none =>
          rw [hl] at h
          cases ha : env.apiDownloadContentRes url digest with
          | error e =>
              simp only [ha, Tr.bind_eq, Tr.bind, emit, liftApi] at h
              injection h with h1 h2
              injection h2
          | ok stream =>
              cases hs : env.storeContent cst stream digest with
              | error n =>
                  simp only [ha, hs, Tr.bind_eq, Tr.bind, emit, liftApi,
                    liftOther] at h
                  injection h with h1 h2
                  injection h2
              | ok cst2 =>
                  cases h2 : cst2 digest with
                  | none =>
                      simp only [ha, hs, h2, Tr.bind_eq, Tr.bind, emit,
                        liftApi, liftOther, throwE] at h
                      injection h with ha1 ha2
                      injection ha2
                  | some path =>
                      simp only [ha, hs, h2, Tr.bind_eq, Tr.bind, emit,
                        liftApi, liftOther, Tr.pure_eq] at h
                      injection h with ha1 ha2
                      injection ha2 with ha3
                      injection ha3 with ha4 ha5
                      rw [← ha5, ← ha4]
                      exact h2
    unfold download_content
    rw [hc]
    rfl

theorem commitFold_ok (env : Env) (dom : Option String) (ts : TsEnvelope) :
    ∀ (l : List (LogId × PackageInfo)) (acc stored : List (LogId × PackageInfo))
      (t : List Event),
      List.foldlM (storePackageStep env dom ts) acc l = (t, Except.ok stored) →
      t = l.map (fun x => Event.storePackage
            { x.2 with checkpoint := some ts.contents.checkpoint } dom)
        ∧ stored = acc ++ l.map (fun x =>
            (x.1, { x.2 with checkpoint := some ts.contents.checkpoint })) := by
  intro l
  induction l with
  | nil =>
      intro acc stored t h
      simp only [List.foldlM_nil, Tr.pure_eq] at h
      injection h with h1 h2
      injection h2 with h3
      refine ⟨h1.symm, ?_⟩
      rw [← h3]
      simp
  | cons x xs ih =>
      intro acc stored t h
      rw [List.foldlM_cons] at h
      cases hr : env.storePackageRes x.1 with
      | error n =>
          simp only [storePackageStep, hr, Tr.bind_eq, Tr.bind, emit,
            liftOther] at h
          injection h with h1 h2
          injection h2
      | ok u =>
          rcases hf : List.foldlM (storePackageStep env dom ts)
            (acc ++ [(x.1, { x.2 with checkpoint := some ts.contents.checkpoint })])
            xs with ⟨tf, rf⟩
          simp only [storePackageStep, hr, hf, Tr.bind_eq, Tr.bind, emit,
            liftOther, Tr.pure_eq] at h
          cases rf with
          | error e =>
              injection h with h1 h2
              injection h2
          | ok st' =>
              injection h with h1 h2
              injection h2 with h3
              obtain ⟨ht, hs⟩ := ih _ _ _ hf
              constructor
              · rw [← h1, ht]
                simp
              · rw [← h3, hs]
                simp

theorem commitPhase_ok (env : Env) (dom : Option String) (ts : TsEnvelope)
    (operator : OperatorInfo) (packages : List (LogId × PackageInfo))
    (t : List Event) (stored : List (LogId × PackageInfo))
    (h : commitPhase env dom ts operator packages = (t, Except.ok stored)) :
    t = Event.storeOperator operator dom ::
        (packages.map (fun x => Event.storePackage
          { x.2 with checkpoint := some ts.contents.checkpoint } dom)
          ++ [Event.storeCheckpoint ts dom])
    ∧ stored = packages.map (fun x =>
        (x.1, { x.2 with checkpoint := some ts.contents.checkpoint })) := by
  unfold commitPhase at h
  cases ho : env.storeOperatorRes with
  | error n =>
      simp only [ho, Tr.bind_eq, Tr.bind, emit, liftOther] at h
      injection h with h1 h2
      injection h2
  | ok u =>
      rcases hf : List.foldlM (storePackageStep env dom ts) [] packages
        with ⟨tf, rf⟩
      cases rf with
      | error e =>
          simp only [ho, hf, Tr.bind_eq, Tr.bind, emit, liftOther] at h
          injection h with h1 h2
          injection h2
      | ok st' =>
          cases hc : env.storeCheckpointRes with
          | error n =>
              simp only [ho, hf, hc, Tr.bind_eq, Tr.bind, emit, liftOther] at h
              injection h with h1 h2
              injection h2
          | ok u2 =>
              simp only [ho, hf, hc, Tr.bind_eq, Tr.bind, emit, liftOther,
                Tr.pure_eq] at h
              injection h with h1 h2
              injection h2 with h3
              obtain ⟨ht, hs⟩ := commitFold_ok env dom ts packages [] st' tf hf
              constructor
              · rw [← h1, ht]
                simp
              · rw [← h3, hs]
                simp

theorem syncPhase_noStore (env : Env) (dom : Option String) (ts : TsEnvelope)
    (pkgs : List PackageInfo) :
    TraceInv (fun e => isRegistryStore e = false) (syncPhase env dom ts pkgs) :=
  syncPhase_traceInv (fun e => isRegistryStore e = false) (fun _ => rfl) (fun _ _ => rfl) (fun _ => rfl)
    (fun _ _ => rfl) (fun _ _ => rfl) (fun _ => rfl) (fun _ _ _ _ => rfl)
    env dom ts pkgs

/-- C1: `update_checkpoint` is atomic with respect to registry storage: a
pass that fails any of the checks the claim lists (record validation,
checkpoint key id or signature, an API proof request, rewind, root
mismatch) performs no `store_operator`, `store_package` or
`store_checkpoint`; on success the stores that occur are exactly the
operator first, then each surviving package with its checkpoint field set
to the new checkpoint, then the checkpoint itself. -/
theorem claim_C1_atomic_commit (env : Env) (dom : Option String)
    (ts : TsEnvelope) (pkgs : List PackageInfo) :
    (∀ e, (update_checkpoint env dom ts pkgs).2 = Except.error e →
      isCheckFailure e = true →
      (update_checkpoint env dom ts pkgs).1.filter isRegistryStore = [])
    ∧ (∀ v, (update_checkpoint env dom ts pkgs).2 = Except.ok v →
      (update_checkpoint env dom ts pkgs).1.filter isRegistryStore = []
      ∨ ∃ (o : OperatorInfo) (ps : List PackageInfo),
        (update_checkpoint env dom ts pkgs).1.filter isRegistryStore =
          Event.storeOperator o dom ::
            (ps.map (fun p => Event.storePackage p dom)
              ++ [Event.storeCheckpoint ts dom])
          ∧ ∀ p ∈ ps, p.checkpoint = some ts.contents.checkpoint) := by
  rcases hs : syncPhase env dom ts pkgs with ⟨t1, r1⟩
  have hts : ∀ e ∈ t1, isRegistryStore e = false := by
    have h := syncPhase_noStore env dom ts pkgs
    rw [hs] at h
    exact h
  have ht1 : t1.filter isRegistryStore = [] :=
    List.filter_eq_nil.mpr (fun a ha => by simp [hts a ha])
  cases r1 with
  | error e1 =>
      have hu : update_checkpoint env dom ts pkgs = (t1, Except.error e1) := by
        unfold update_checkpoint
        rw [hs]
        rfl
      rw [hu]
      constructor
      · intro e he hcf
        exact ht1
      · intro v hv
        simp at hv
  | ok st? =>
      cases st? with
      | none =>
          have hu : update_checkpoint env dom ts pkgs = (t1, Except.ok pkgs) := by
            unfold update_checkpoint
            rw [hs]
            simp
          rw [hu]
          constructor
          · intro e he hcf
            simp at he
          · intro v hv
            left
            exact ht1
      | some st =>
          rcases hc : commitPhase env dom ts st.1 st.2 with ⟨t2, r2⟩
          cases r2 with
          | error e2 =>
              have hu : update_checkpoint env dom ts pkgs =
                  (t1 ++ t2, Except.error e2) := by
                unfold update_checkpoint
                rw [hs]
                simp [hc]
              rw [hu]
              constructor
              · intro e he hcf
                injection he with he'
                obtain ⟨n, hn⟩ := commitPhase_errOther env dom ts st.1 st.2 e2
                  (by rw [hc])
                rw [← he', hn] at hcf
                simp [isCheckFailure] at hcf
              · intro v hv
                simp at hv
          | ok stored =>
              have hu : update_checkpoint env dom ts pkgs =
                  (t1 ++ t2, Except.ok (pkgs.map fun p =>
                    (alookup stored (LogId.package p.name)).getD p)) := by
                unfold update_checkpoint
                rw [hs]
                simp [hc]
              rw [hu]
              obtain ⟨ht2, hst⟩ := commitPhase_ok env dom ts st.1 st.2 t2 stored hc
              constructor
              · intro e he hcf
                simp at he
              · intro v hv
                right
                refine ⟨st.1, st.2.map (fun x =>
                  { x.2 with checkpoint := some ts.contents.checkpoint }), ?_, ?_⟩
                · show (t1 ++ t2).filter isRegistryStore = _
                  rw [List.filter_append, ht1, List.nil_append, ht2]
                  rw [List.filter_eq_self.mpr]
                  · rw [List.map_map]
                    rfl
                  · intro a ha
                    simp only [List.mem_cons, List.mem_append, List.mem_map,
                      List.mem_singleton] at ha
                    rcases ha with rfl | ⟨x, hx, rfl⟩ | rfl | h
                    · rfl
                    · rfl
                    · rfl
                    · simp at h
                · intro p hp
                  obtain ⟨x, hx, rfl⟩ := List.mem_map.mp hp
                  rfl

/-- C5 counterexample: with every supplied package already at the target
checkpoint the call succeeds and performs no fetch, proof or store, but it
is not free of I/O as the claim states: the operator-log storage read at
the top of `update_checkpoint` happens before the filter. -/
theorem claim_C5_counterexample :
    (update_checkpoint envBase none tsC5 [pkgC5]).2 = Except.ok [pkgC5]
    ∧ (update_checkpoint envBase none tsC5 [pkgC5]).1 = [Event.loadOperator none]
    ∧ (update_checkpoint envBase none tsC5 [pkgC5]).1.filter isStorageRead ≠ [] := by
  refine ⟨by decide, by decide, by decide⟩

/-- C5 amended: every package whose stored checkpoint equals the target
checkpoint is dropped from the working set (and only those), and when no
package remains the call returns success having performed exactly one I/O
operation, the operator-log storage read that precedes the filter — no
fetch, no proof request, no store, and no other storage read. -/
theorem claim_C5_amended_filter (env : Env) (dom : Option String)
    (ts : TsEnvelope) (pkgs : List PackageInfo) :
    (∀ x ∈ filterPackages ts.contents.checkpoint pkgs,
      x.2.checkpoint ≠ some ts.contents.checkpoint)
    ∧ (∀ p ∈ pkgs, p.checkpoint ≠ some ts.contents.checkpoint →
      (LogId.package p.name, p) ∈ filterPackages ts.contents.checkpoint pkgs)
    ∧ (filterPackages ts.contents.checkpoint pkgs = [] →
      update_checkpoint env dom ts pkgs =
        ([Event.loadOperator dom],
          match env.loadOperator dom with
          | Except.error n => Except.error (Err.other n)
          | Except.ok _ => Except.ok pkgs)) := by
  refine ⟨?_, ?_, ?_⟩
  · intro x hx
    obtain ⟨p, hp, hfp⟩ := List.mem_filterMap.mp hx
    cases hcp : p.checkpoint with
    | none =>
        simp only [filterPackages, hcp] at hfp
        injection hfp with hfp'
        rw [← hfp']
        simp [hcp]
    | some c =>
        simp only [filterPackages, hcp] at hfp
        by_cases heq : c = ts.contents.checkpoint
        · rw [if_pos heq] at hfp
          simp at hfp
        · rw [if_neg heq] at hfp
          injection hfp with hfp'
          rw [← hfp']
          simp [hcp, heq]
  · intro p hp hne
    apply List.mem_filterMap.mpr
    refine ⟨p, hp, ?_⟩
    cases hcp : p.checkpoint with
    | none => simp [filterPackages, hcp]
    | some c =>
        have : c ≠ ts.contents.checkpoint := by
          intro hc
          rw [hcp, hc] at hne
          exact hne rfl
        simp [filterPackages, hcp, this]
  · intro hempty
    unfold update_checkpoint syncPhase
    dsimp only
    rw [hempty]
    cases hl : env.loadOperator dom with
    | error n => simp [hl, Tr.bind, emit, liftOther]
    | ok v => simp [hl, Tr.bind, emit, liftOther]

theorem namespaceMapTier_eq (env : Env) (ns : String) :
    namespaceMapTier env ns =
      ([Event.loadNamespaceMap],
        match env.loadNamespaceMapRes with
        | Except.error n => Except.error (Err.other n)
        | Except.ok nm => Except.ok (match nm with
            | some m => slookup m ns
            | none => none)) := by
  unfold namespaceMapTier
  cases env.loadNamespaceMapRes <;> rfl

/-- C4 counterexample: with the operator state present and the namespace
state Defined, resolution does not continue to the filesystem walk as the
claim states: no walk happens (no walk event is in the trace), the
`.warg.json` mapping is ignored, and the result comes from the
client-wide namespace map. -/
theorem claim_C4_counterexample :
    get_package_namespace_domain envC4 nameC4 =
      ([Event.loadOperator none, Event.loadNamespaceMap],
        Except.ok (some "mapdomain"))
    ∧ Event.walkDir ∉ (get_package_namespace_domain envC4 nameC4).1 := by
  refine ⟨by rfl, by decide⟩

/-- C4 amended: when the default operator state is present and its
namespace state for the package's namespace is Imported{registry}, that
registry is returned; when it is Defined or None, resolution skips the
filesystem walk entirely and continues directly with the client-wide
namespace map (the walk runs only when no operator state is present). -/
theorem claim_C4_amended_resolver (env : Env) (name : PackageName)
    (op : OperatorInfo) :
    (∀ r, env.loadOperator none = Except.ok (some op) →
      env.opNamespaceState op.state name.nsp =
        Except.ok (some (NamespaceState.imported r)) →
      get_package_namespace_domain env name =
        ([Event.loadOperator none], Except.ok (some r)))
    ∧ (env.loadOperator none = Except.ok (some op) →
      (env.opNamespaceState op.state name.nsp =
          Except.ok (some NamespaceState.defined) ∨
        env.opNamespaceState op.state name.nsp = Except.ok none) →
      get_package_namespace_domain env name =
        ([Event.loadOperator none, Event.loadNamespaceMap],
          (namespaceMapTier env name.nsp).2)
      ∧ Event.walkDir ∉ (get_package_namespace_domain env name).1) := by
  constructor
  · intro r hload hns
    unfold get_package_namespace_domain
    simp [hload, hns, Tr.bind, emit, liftOther]
  · intro hload hns
    have key : get_package_namespace_domain env name =
        ([Event.loadOperator none, Event.loadNamespaceMap],
          (namespaceMapTier env name.nsp).2) := by
      unfold get_package_namespace_domain
      rcases hns with hns | hns <;>
        simp [hload, hns, Tr.bind, emit, liftOther, namespaceMapTier_eq] <;>
        cases env.loadNamespaceMapRes <;> rfl
    refine ⟨key, ?_⟩
    rw [key]
    simp

/-- C7 counterexample: a pending publish intent is found, but namespace
resolution fails before `publish_with_info` is ever invoked, and `publish`
returns without calling `store_publish(None)`: the stored pending publish
is not cleared even though a failure surfaced. -/
theorem claim_C7_counterexample :
    (publish envC7 0).2 = Except.error (Err.other 7)
    ∧ (publish envC7 0).1 = [Event.loadPublish, Event.loadOperator none]
    ∧ (publish envC7 0).1.filter isStorePublishEvent = [] := by
  refine ⟨by decide, by decide, by decide⟩

/-- C7 amended: when `publish` finds a stored pending publish intent and
namespace resolution succeeds, the stored pending publish is cleared via
`store_publish(None)` regardless of whether `publish_with_info` succeeds
or fails; when namespace resolution fails, `publish` returns early and the
pending intent is left in place. -/
theorem claim_C7_amended_clear (env : Env) (key : Nat) (info : PublishInfo)
    (tg : List Event) (dom : Option String) :
    env.loadPublishRes = Except.ok (some info) →
    get_package_namespace_domain env info.name = (tg, Except.ok dom) →
    Event.storePublish none ∈ (publish env key).1 := by
  intro h1 h2
  unfold publish
  simp only [h1, h2, Tr.bind_eq, Tr.bind, emit, liftOther, ofOption, reify,
    Tr.pure_eq]
  simp [List.mem_append]

theorem publishPre_noSubmit (env : Env) (info : PublishInfo)
    (dom : Option String) :
    TraceInv (fun e => isPublishRecordEvent e = false) (publishPre env info dom) := by
  apply publishPre_traceInv (fun e => isPublishRecordEvent e = false)
  intro e he
  cases e <;> first | rfl | exact Bool.noConfusion he

/-- C6: `publish_with_info` rejects an empty intent with `NothingToPublish`
before any effect; the reconciliation after the optional re-synchronization
maps (initializing, head present) to `CannotInitializePackage` and
(not initializing, head still absent) to `MustInitializePackage` — in
particular, when the re-synchronization leaves the package log head empty
the call fails with `MustInitializePackage` — and whenever the result is
one of these three errors, no record was submitted to the registry. -/
theorem claim_C6_publish_intent_errors (env : Env) (key : Nat)
    (info : PublishInfo) (dom : Option String) (n : PackageName) :
    (info.entries = [] →
      publish_with_info env key info dom =
        ([], Except.error (Err.nothingToPublish info.name)))
    ∧ reconcileIntent true true n = Except.error (Err.cannotInitializePackage n)
    ∧ reconcileIntent false false n = Except.error (Err.mustInitializePackage n)
    ∧ (∀ ts tu pkgs' pkgopt,
      info.entries.isEmpty = false →
      info.initializing = false →
      info.head = none →
      env.loadPackage info.name dom = Except.ok pkgopt →
      env.latestCheckpointRes none = Except.ok ts →
      update_checkpoint env none ts [pkgopt.getD (PackageInfo.new info.name)] =
        (tu, Except.ok pkgs') →
      env.pkgHead (pkgs'.headD (pkgopt.getD (PackageInfo.new info.name))).state =
        none →
      (publish_with_info env key info dom).2 =
        Except.error (Err.mustInitializePackage
          (pkgs'.headD (pkgopt.getD (PackageInfo.new info.name))).name))
    ∧ (∀ e, (publish_with_info env key info dom).2 = Except.error e →
      isIntentErr e = true →
      ∀ id, Event.publishRecord id ∉ (publish_with_info env key info dom).1) := by
  refine ⟨?_, rfl, rfl, ?_, ?_⟩
  · intro hempty
    unfold publish_with_info publishPre
    simp [hempty, Tr.bind, throwE]
  · intro ts tu pkgs' pkgopt hne hinit hhead hload hlatest hupd hph
    simp only [List.headD_eq_head?] at hph
    unfold publish_with_info publishPre resyncStep
    simp [hne, hinit, hhead, hload, hlatest, hupd, hph, Tr.bind, emit,
      liftOther, liftApi, liftClient, reconcileIntent, throwE]
  · intro e he hint id
    rcases hp : publishPre env info dom with ⟨tp, rp⟩
    have hinv := publishPre_noSubmit env info dom
    rw [hp] at hinv
    cases rp with
    | error e1 =>
        have hu : publish_with_info env key info dom = (tp, Except.error e1) := by
          unfold publish_with_info
          rw [hp]
          rfl
        rw [hu]
        intro hmem
        have := hinv _ hmem
        simp [isPublishRecordEvent] at this
    | ok ip =>
        rcases hq : publishSubmit env key ip with ⟨tq, rq⟩
        have hu : publish_with_info env key info dom =
            (tp ++ tq, rq) := by
          unfold publish_with_info
          rw [hp]
          show Tr.bind (tp, Except.ok ip) _ = _
          rw [Tr.bind_ok]
          rw [hq]
        rw [hu] at he
        cases rq with
        | ok v => simp at he
        | error e2 =>
            injection he with he'
            have h2 := publishSubmit_errInv env key ip e2 (by rw [hq])
            rw [he'] at h2
            rw [h2] at hint
            exact Bool.noConfusion hint

/-- C8: `download_exact` only ever invokes the content download with
`url = None`: every API content-download event in its trace carries no
content-host URL, so exact-version content is always fetched from the
client's default registry URL, with no namespace-map lookup feeding the
download (unlike `download`). -/
theorem claim_C8_download_exact_default_url (env : Env) (cst : CState)
    (package : PackageName) (version : Nat) :
    (download_exact env cst package version).1.all urlIsNoneEvent = true := by
  have hinv : TraceInv (fun e => urlIsNoneEvent e = true)
      (download_exact env cst package version) := by
    unfold download_exact
    apply traceInv_bind (fun e => urlIsNoneEvent e = true)
    · apply fetch_package_traceInv (fun e => urlIsNoneEvent e = true)
      intro e he
      cases e <;> first | rfl | exact Bool.noConfusion he
    intro info
    apply traceInv_bind (fun e => urlIsNoneEvent e = true) _ _
      (traceInv_ofOption _ _ _)
    intro rel
    apply traceInv_bind (fun e => urlIsNoneEvent e = true) _ _
      (traceInv_ofOption _ _ _)
    intro digest
    apply traceInv_bind (fun e => urlIsNoneEvent e = true)
    · exact download_content_traceInv (fun e => urlIsNoneEvent e = true)
        env cst none digest rfl rfl
    intro pc
    exact traceInv_pure _ _
  rw [List.all_eq_true]
  intro e he
  exact hinv e he

/-- C10: `publish_with_info` neither reads nor writes the stored pending
publish intent: no `load_publish` or `store_publish` event ever appears in
its trace, whether it succeeds or fails, so a pending publish staged in
registry storage is left unchanged; only `publish` itself clears it. -/
theorem claim_C10_publish_with_info_frame (env : Env) (key : Nat)
    (info : PublishInfo) (dom : Option String) :
    (publish_with_info env key info dom).1.all
      (fun e => !touchesPublishStore e) = true := by
  have hinv : TraceInv (fun e => touchesPublishStore e = false)
      (publish_with_info env key info dom) := by
    apply publish_with_info_traceInv (fun e => touchesPublishStore e = false)
    intro e he
    cases e <;> first | rfl | exact Bool.noConfusion he
  rw [List.all_eq_true]
  intro e he
  have h := hinv e he
  simp [h]

/-- Witness for C1 at a concrete input: the pass fails at key-id
resolution (a listed check) and the trace holds no registry store. -/
theorem claim_C1_atomic_commit_witness :
    (update_checkpoint envC1w none tsC5 [pkgW]).2 =
      Except.error (Err.invalidCheckpointKeyId 0)
    ∧ (update_checkpoint envC1w none tsC5 [pkgW]).1.filter isRegistryStore = [] :=
  ⟨by decide, (claim_C1_atomic_commit envC1w none tsC5 [pkgW]).1
    (Err.invalidCheckpointKeyId 0) (by decide) (by decide)⟩

/-- Witness for C2 at concrete checkpoints: a rewind from length 10 to 9,
an equal-length root change, and a growth from 10 to 11 with its
consistency request. -/
theorem claim_C2_checkpoint_comparison_witness :
    consistencyStep envBase ⟨⟨⟨10, 1, 2⟩, 0⟩, 0, 0⟩ ⟨⟨⟨9, 1, 2⟩, 0⟩, 0, 0⟩ =
      ([], Except.error (Err.checkpointLogLengthRewind 10 9))
    ∧ consistencyStep envBase ⟨⟨⟨10, 1, 2⟩, 0⟩, 0, 0⟩ ⟨⟨⟨10, 3, 2⟩, 0⟩, 0, 0⟩ =
      ([], Except.error (Err.checkpointChangedLogRootOrMapRoot 10))
    ∧ consistencyStep envBase ⟨⟨⟨10, 1, 2⟩, 0⟩, 0, 0⟩ ⟨⟨⟨11, 3, 2⟩, 0⟩, 0, 0⟩ =
      ([Event.proveConsistency 10 11 1 3], Except.ok ()) :=
  ⟨(claim_C2_checkpoint_comparison envBase _ _).1 (by decide),
    (claim_C2_checkpoint_comparison envBase _ _).2.1 (by decide) (by decide),
    (claim_C2_checkpoint_comparison envBase _ _).2.2 (by decide)⟩

/-- Witness for C3 at a concrete record: an already-seen record is skipped
without validation, a new record is validated and advances the head. -/
theorem claim_C3_monotone_index_gate_witness :
    processOpRecord envC3 oSkip rW = ([], Except.ok oSkip)
    ∧ processOpRecord envC3 oTake rW =
      ([Event.validateOp 5], Except.ok ⟨7, some 9, some 33⟩) :=
  ⟨(claim_C3_monotone_index_gate envC3 oSkip LogId.operator pkgW rW ⟨5, 9⟩
      rfl).1.2.1 (by decide),
    ((claim_C3_monotone_index_gate envC3 oTake LogId.operator pkgW rW ⟨5, 9⟩
      rfl).1.2.2 7 (by decide) rfl).1⟩

/-- Witness for the amended C4: an imported namespace returns the
importing registry with no walk and no namespace-map read. -/
theorem claim_C4_amended_resolver_witness :
    get_package_namespace_domain envC4i nameC4 =
      ([Event.loadOperator none], Except.ok (some "other")) :=
  (claim_C4_amended_resolver envC4i nameC4 ⟨0, none, none⟩).1 "other" rfl rfl

/-- Witness for the amended C5: the single package is already at the
checkpoint, and the call is exactly the operator load plus success. -/
theorem claim_C5_amended_filter_witness :
    update_checkpoint envBase none tsC5 [pkgC5] =
      ([Event.loadOperator none], Except.ok [pkgC5]) :=
  (claim_C5_amended_filter envBase none tsC5 [pkgC5]).2.2 (by decide)

/-- Witness for C6: an empty intent is rejected before any effect. -/
theorem claim_C6_publish_intent_errors_witness :
    publish_with_info envBase 0 infoEmpty none =
      ([], Except.error (Err.nothingToPublish ⟨"ns", "p"⟩)) :=
  (claim_C6_publish_intent_errors envBase 0 infoEmpty none ⟨"ns", "p"⟩).1 rfl

/-- Witness for the amended C7: the pending publish is cleared even though
the publish itself fails (the record cannot be finalized). -/
theorem claim_C7_amended_clear_witness :
    Event.storePublish none ∈ (publish envC7w 0).1 :=
  claim_C7_amended_clear envC7w 0 infoC7
    [Event.loadOperator none, Event.walkDir, Event.loadNamespaceMap] none
    rfl (by rfl)

/-- Witness for C9: a cached digest is returned without any effect. -/
theorem claim_C9_download_content_idempotent_witness :
    download_content envBase cstW none 4 = ([], Except.ok (44, cstW)) :=
  (claim_C9_download_content_idempotent envBase cstW none 4).1 44 (by decide)
